import Mathlib

set_option autoImplicit false

/-!
Shallow embedding of the envelope-processing core of `relay-server`
(`src/relay-server/src/actors/envelopes.rs`), together with the pieces of
the data model it manipulates.  Out-of-tree collaborators (the envelope
container, the clock-drift processor of `relay-general`, the release
validator, PII processors, samplers) are modelled from the specification
and kept abstract where the spec leaves them abstract; every such
definition carries a doc comment saying so.

Timestamps are modelled as `Int` seconds, byte buffers by their parse
results plus an abstract identity, and machine integers as `Nat`/`Int`
with explicit bounds where overflow matters (`u64::MAX`).
-/

namespace Relay

/-- `u64::MAX`, used by the session sequence-overflow check. -/
def u64Max : Nat := 2 ^ 64 - 1

/-- Item types of an envelope (`ItemType` in `envelope.rs`, listed by the
spec's data model as a closed set with a catch-all `Unknown`). -/
inductive ItemType where
  | event
  | transaction
  | security
  | attachment
  | formData
  | rawSecurity
  | unrealReport
  | userReport
  | session
  | sessions
  | metrics
  | metricBuckets
  | clientReport
  | profile
  | replayRecording
  | unknown (name : String)
deriving DecidableEq, Repr

/-- Attachment sub-kinds (`AttachmentType`), per the spec's data model:
EventPayload, Breadcrumbs, Minidump, AppleCrashReport, unreal data, or
generic. -/
inductive AttachmentType where
  | eventPayload
  | breadcrumbs
  | minidump
  | appleCrashReport
  | unrealContext
  | unrealLogs
  | attachment
deriving DecidableEq, Repr

/-- Event types (`EventType` of the protocol). `default` is assumed when
an event carries no type. -/
inductive EventType where
  | default
  | error
  | csp
  | hpkp
  | expectCt
  | expectStaple
  | transaction
deriving DecidableEq, Repr

instance : Inhabited EventType := ⟨EventType.default⟩

/-- Data categories used for outcome accounting (`relay_quotas::DataCategory`). -/
inductive DataCategory where
  | error
  | transaction
  | security
  | attachment
  | session
  | profile
  | unknown
deriving DecidableEq, Repr

/-- `DataCategory::from(EventType)`: both `Default` and `Error` events map
to the `Error` category. -/
def DataCategory.ofEventType : EventType → DataCategory
  | .default => .error
  | .error => .error
  | .csp => .security
  | .hpkp => .security
  | .expectCt => .security
  | .expectStaple => .security
  | .transaction => .transaction

/-- Discard reasons attached to `Outcome::Invalid`. -/
inductive DiscardReason where
  | tooLarge
  | invalidJson
  | invalidMsgpack
  | securityReportType
  | securityReport
  | invalidTransaction
  | duplicateItem
  | noEventPayload
  | invalidCompression
  | processUnreal
  | processProfile
  | internal
deriving DecidableEq, Repr

/-- Outcomes as in the spec's closed enum (`Accepted` is never produced by
the processor itself and is omitted from the constructor set it emits).
`FilterStatKey` and `ReasonCode` are strings of the respective crates. -/
inductive Outcome where
  | filtered (key : String)
  | filteredSampling (ruleId : Nat)
  | rateLimited (reason : Option String)
  | invalid (reason : DiscardReason)
  | abuse
  | clientDiscard (reason : String)
deriving DecidableEq, Repr

/-- Kinds of `symbolic_unreal::Unreal4Error`, reduced to the distinction
`to_outcome` makes. -/
inductive Unreal4ErrorKind where
  | badCompression
  | other
deriving DecidableEq, Repr

/-- `ProcessingError` of `envelopes.rs`, with error causes reduced to unit
and `RuleId` to its `u64` payload. -/
inductive ProcessingError where
  | invalidJson
  | invalidMsgpack
  | invalidUnrealReport (kind : Unreal4ErrorKind)
  | payloadTooLarge
  | invalidTransaction
  | processingFailed
  | duplicateItem (ty : ItemType)
  | noEventPayload
  | scheduleFailed
  | projectFailed
  | missingProjectId
  | invalidSecurityType
  | invalidSecurityReport
  | rejected (reason : DiscardReason)
  | eventFiltered (key : String)
  | serializeFailed
  | envelopeBuildFailed
  | bodyEncodingFailed
  | upstreamRequestFailed
  | storeFailed
  | rateLimited
  | quotasFailed
  | timeout
  | traceSampled (rule : Nat)
  | eventSampled (rule : Nat)
deriving DecidableEq, Repr

namespace ProcessingError

/-- `ProcessingError::to_outcome`. -/
def to_outcome : ProcessingError → Option Outcome
  | .payloadTooLarge => some (.invalid .tooLarge)
  | .invalidJson => some (.invalid .invalidJson)
  | .invalidMsgpack => some (.invalid .invalidMsgpack)
  | .invalidSecurityType => some (.invalid .securityReportType)
  | .invalidSecurityReport => some (.invalid .securityReport)
  | .invalidTransaction => some (.invalid .invalidTransaction)
  | .duplicateItem _ => some (.invalid .duplicateItem)
  | .noEventPayload => some (.invalid .noEventPayload)
  | .invalidUnrealReport .badCompression => some (.invalid .invalidCompression)
  | .invalidUnrealReport _ => some (.invalid .processUnreal)
  | .serializeFailed => some (.invalid .internal)
  | .projectFailed => some (.invalid .internal)
  | .timeout => some (.invalid .internal)
  | .processingFailed => some (.invalid .internal)
  | .missingProjectId => some (.invalid .internal)
  | .quotasFailed => some (.invalid .internal)
  | .scheduleFailed => none
  | .rejected _ => none
  | .eventFiltered _ => none
  | .traceSampled _ => none
  | .eventSampled _ => none
  | .rateLimited => none
  | .storeFailed => none
  | .upstreamRequestFailed => none
  | .envelopeBuildFailed => none
  | .bodyEncodingFailed => none

/-- `ProcessingError::should_keep_metrics`: true exactly on the
dynamic-sampling errors. -/
def should_keep_metrics : ProcessingError → Bool
  | .traceSampled _ => true
  | .eventSampled _ => true
  | _ => false

end ProcessingError

/-- Fields of client reports (`ClientReportField`). -/
inductive ClientReportField where
  | filtered
  | filteredSampling
  | rateLimited
  | clientDiscard
deriving DecidableEq, Repr

/-- The order `BTreeMap` uses on `ClientReportField` (derived `Ord`,
declaration order). -/
def ClientReportField.idx : ClientReportField → Nat
  | .filtered => 0
  | .filteredSampling => 1
  | .rateLimited => 2
  | .clientDiscard => 3

/-- Removes the prefix `p` from `s`, as Rust's `str::strip_prefix`:
`some rest` when `s = p ++ rest`, otherwise `none`. -/
def stripStart (p s : String) : Option String :=
  go p.data s.data |>.map (fun l => ⟨l⟩)
where
  go : List Char → List Char → Option (List Char)
    | [], s => some s
    | _ :: _, [] => none
    | p :: ps, c :: cs => if p = c then go ps cs else none

/-- Rust's `str::parse::<u64>()`: an optional leading `+`, then one or
more ASCII digits, value bounded by `u64::MAX` (overflow errors). -/
def parseU64 (s : String) : Option Nat :=
  let body : List Char :=
    match s.data with
    | '+' :: rest => rest
    | l => l
  if body.isEmpty then none
  else if body.all Char.isDigit then
    let n := body.foldl (fun acc c => acc * 10 + (c.toNat - 48)) 0
    if n ≤ u64Max then some n else none
  else none

/-- `outcome_from_parts` (`envelopes.rs`): reconstructs an outcome from a
client-report field and a reason string.  `parse_filter_stat_key` stands
for `FilterStatKey::try_from` of the out-of-tree `relay_filter` crate. -/
def outcome_from_parts (parse_filter_stat_key : String → Option String)
    (field : ClientReportField) (reason : String) : Except Unit Outcome :=
  match field with
  | .filteredSampling =>
    match stripStart "Sampled:" reason with
    | some rule_id =>
      match parseU64 rule_id with
      | some id => .ok (.filteredSampling id)
      | none => .error ()
    | none => .error ()
  | .clientDiscard => .ok (.clientDiscard reason)
  | .filtered =>
    match parse_filter_stat_key reason with
    | some key => .ok (.filtered key)
    | none => .error ()
  | .rateLimited =>
    .ok (.rateLimited (if reason = "" then none else some reason))

/-! ## Clock drift, configuration, project state -/

/-- The minimum clock drift for correction to apply
(`MINIMUM_CLOCK_DRIFT = 55 * 60` seconds in `envelopes.rs`). -/
def MINIMUM_CLOCK_DRIFT : Int := 55 * 60

/-- Modelled from the spec: `relay_general::store::ClockDriftProcessor`
(crate `relay-general`, not under `src/`).  §4.2: given `sent_at` and
`received_at`, `drift = received_at - sent_at`; the corrector is active
iff `|drift| ≥ MINIMUM_DRIFT` (installed via `at_least`); when active it
offsets any datetime or Unix timestamp by `+drift`. -/
structure ClockDriftProcessor where
  drift : Option Int
deriving DecidableEq, Repr

namespace ClockDriftProcessor

/-- `ClockDriftProcessor::new(sent_at, received)`. -/
def new (sent_at : Option Int) (received : Int) : ClockDriftProcessor :=
  { drift := sent_at.map (fun s => received - s) }

/-- `at_least(lower_bound)`: keep the drift only when its magnitude
reaches the bound. -/
def at_least (p : ClockDriftProcessor) (lower : Int) : ClockDriftProcessor :=
  { drift := p.drift.filter (fun d => |d| ≥ lower) }

/-- `is_drifted`: whether correction is active. -/
def is_drifted (p : ClockDriftProcessor) : Bool :=
  p.drift.isSome

/-- `process_datetime`: offset a datetime by the drift. -/
def process_datetime (p : ClockDriftProcessor) (t : Int) : Int :=
  t + p.drift.getD 0

/-- `process_timestamp` on a `u64` Unix timestamp (clamped at zero). -/
def process_timestamp (p : ClockDriftProcessor) (t : Nat) : Nat :=
  ((t : Int) + p.drift.getD 0).toNat

end ClockDriftProcessor

/-- The slice of `relay_config::Config` the processor consults. -/
structure Config where
  max_session_secs_in_past : Int
  max_secs_in_past : Int
  max_secs_in_future : Int
  max_event_size : Nat
  processing_enabled : Bool
  emit_outcomes_any : Bool
  emit_client_outcomes : Bool
  relay_version : String
  public_key : Option String
deriving DecidableEq, Repr

/-- Modelled from the spec: `SessionMetricsConfig`
(`metrics_extraction/sessions.rs`, not under `src/`): whether session
metric extraction is enabled and whether the session item is dropped
after extraction (§4.3 steps 7–8). -/
structure SessionMetricsConfig where
  enabled : Bool
  dropAfterExtraction : Bool
deriving DecidableEq, Repr

def SessionMetricsConfig.is_enabled (c : SessionMetricsConfig) : Bool :=
  c.enabled

def SessionMetricsConfig.should_drop (c : SessionMetricsConfig) : Bool :=
  c.dropAfterExtraction

/-- Project features gating optional processors. -/
inductive Feature where
  | profiling
  | replays
deriving DecidableEq, BEq, Repr

/-- The slice of `ProjectConfig` (`actors/project.rs`) the processor
consults.  PII configurations are abstract identifiers handed to the
out-of-tree PII processor. -/
structure ProjectConfig where
  event_retention : Option Nat := none
  pii_config : Option Nat := none
  datascrubbing_pii_config : Option Nat := none
  session_metrics : SessionMetricsConfig := ⟨false, false⟩
deriving DecidableEq, Repr

/-- The slice of `ProjectState` the processor consults. -/
structure ProjectState where
  project_id : Option Nat := none
  config : ProjectConfig := {}
  features : List Feature := []
deriving DecidableEq, Repr

/-- `ProjectState::has_feature`. -/
def ProjectState.has_feature (st : ProjectState) (f : Feature) : Bool :=
  st.features.contains f

/-! ## Protocol data model (events, sessions, client reports) -/

/-- Derived metrics are opaque to the processor; only their identity and
count matter to the pipeline, so they are abstracted to tags. -/
abbrev Metric := Nat

/-- `Annotated<Breadcrumb>`: an optional breadcrumb value carrying an
optional timestamp plus an abstract identity for its remaining fields. -/
structure CrumbVal where
  timestamp : Option Int
  tag : Nat
deriving DecidableEq, Repr

structure Crumb where
  value : Option CrumbVal
deriving DecidableEq, Repr

/-- A relay-path entry (`RelayInfo`) appended to `ingest_path`. -/
structure RelayInfoM where
  version : String
  public_key : Option String
deriving DecidableEq, Repr

/-- The `Metrics` record folded into the event in processing mode. -/
structure MetricsM where
  bytes_ingested_event : Option Nat := none
  bytes_ingested_event_minidump : Option Nat := none
  bytes_ingested_event_applecrashreport : Option Nat := none
  bytes_ingested_event_attachment : Option Nat := none
  sample_rates : Option (List Nat) := none
deriving DecidableEq, Repr

/-- The slice of the `Event` protocol type the processor reads or
writes; `rest` is an abstract identity for all untouched fields. -/
structure Event where
  id : Option Nat := none
  ty : Option EventType := none
  timestamp : Option Int := none
  release : Option String := none
  environment : Option String := none
  breadcrumbs : Option (List Crumb) := none
  ingest_path : Option (List RelayInfoM) := none
  metricsField : Option MetricsM := none
  rest : Nat := 0
deriving DecidableEq, Repr

/-- Session IP attribute: the sentinel auto value or a concrete address. -/
inductive SessionIp where
  | auto
  | addr (a : Int)
deriving DecidableEq, Repr

def SessionIp.is_auto : SessionIp → Bool
  | .auto => true
  | .addr _ => false

structure SessionAttributes where
  release : String
  environment : Option String := none
  ip_address : Option SessionIp := none
deriving DecidableEq, Repr

/-- A parsed `SessionUpdate`; `rest` abstracts the untouched fields. -/
structure SessionUpdate where
  started : Int
  timestamp : Int
  sequence : Nat
  attributes : SessionAttributes
  rest : Nat := 0
deriving DecidableEq, Repr

structure SessionAggregateItem where
  started : Int
  rest : Nat := 0
deriving DecidableEq, Repr

structure SessionAggregates where
  aggregates : List SessionAggregateItem
  attributes : SessionAttributes
deriving DecidableEq, Repr

/-- One discarded-event entry of a client report. -/
structure DiscardedEvent where
  reason : String
  category : DataCategory
  quantity : Nat
deriving DecidableEq, Repr

/-- A parsed `ClientReport`. -/
structure ClientReportData where
  timestamp : Option Nat := none
  discarded_events : List DiscardedEvent := []
  rate_limited_events : List DiscardedEvent := []
  filtered_events : List DiscardedEvent := []
  filtered_sampling_events : List DiscardedEvent := []
deriving DecidableEq, Repr

inductive SecurityReportType where
  | csp
  | expectCt
  | expectStaple
  | hpkp
deriving DecidableEq, Repr

/-- `EventType` forced by `event_from_security_report` for a report type. -/
def SecurityReportType.eventType : SecurityReportType → EventType
  | .csp => .csp
  | .expectCt => .expectCt
  | .expectStaple => .expectStaple
  | .hpkp => .hpkp

/-- Parse view of a raw-security payload: JSON parse failure, a JSON
document that is no security report, a report whose `apply_to_event`
fails, or a successful application producing an event. -/
inductive SecurityView where
  | badJson
  | notSecurity
  | badReport (ty : SecurityReportType)
  | ok (ty : SecurityReportType) (ev : Event)
deriving DecidableEq, Repr

/-! ## Items and envelopes -/

/-- Byte payloads are modelled by their parse results under each of the
parsers the processor may apply, plus an abstract raw identity.  A view
is `none`/failing when the corresponding parser would fail on the bytes. -/
structure ItemPayload where
  raw : Nat := 0
  session : Option SessionUpdate := none
  sessionAgg : Option SessionAggregates := none
  userReport : Option Nat := none
  clientReport : Option ClientReportData := none
  eventJson : Option (Option Event) := none
  attachedEvent : Option (Option Event) := none
  crumbs : Option (List Crumb) := none
  formEvent : Option Event := none
  security : SecurityView := .badJson
  profilePlatform : Option String := none
  profileParseOk : Bool := false
deriving DecidableEq, Repr

/-- An envelope item: type, attachment kind, byte length, headers, and
payload (`envelope.rs::Item`, modelled from the spec's data model). -/
structure Item where
  ty : ItemType
  attachment_ty : Option AttachmentType := none
  len : Nat := 0
  metrics_extracted : Bool := false
  sample_rates : Option (List Nat) := none
  sentry_release : Option String := none
  sentry_environment : Option String := none
  payload : ItemPayload := {}
deriving DecidableEq, Repr

namespace Item

def attachment_type (i : Item) : Option AttachmentType :=
  i.attachment_ty

def is_empty (i : Item) : Bool :=
  i.len = 0

/-- Modelled from the spec: `Item::creates_event` (`envelope.rs`, not
under `src/`): event-implying item types, and attachments whose kind
carries event data. -/
def creates_event (i : Item) : Bool :=
  match i.ty with
  | .event => true
  | .transaction => true
  | .security => true
  | .rawSecurity => true
  | .formData => true
  | .unrealReport => true
  | .attachment =>
    match i.attachment_ty with
    | some .eventPayload => true
    | some .breadcrumbs => true
    | some .minidump => true
    | some .appleCrashReport => true
    | some .unrealContext => true
    | some .unrealLogs => true
    | _ => false
  | _ => false

/-- `take_sample_rates`: hand out and clear the sample-rates header. -/
def take_sample_rates (i : Item) : Option (List Nat) × Item :=
  (i.sample_rates, { i with sample_rates := none })

end Item

/-- Scoping tuple for quota and outcome attribution. -/
structure Scoping where
  organization_id : Nat := 0
  project_id : Nat := 0
  project_key : Nat := 0
  key_id : Option Nat := none
deriving DecidableEq, Repr

/-- Immutable request metadata of an envelope; `received_at` stands for
`instant_to_date_time(start_time)`. -/
structure RequestMeta where
  client : Option String := none
  client_addr : Option Int := none
  project_id : Option Nat := none
  received_at : Int := 0
  partial_scoping : Scoping := {}
deriving DecidableEq, Repr

/-- The envelope: mutable headers plus the ordered item list (modelled
from the spec's data model of `envelope.rs`). -/
structure Envelope where
  meta : RequestMeta := {}
  event_id : Option Nat := none
  sent_at : Option Int := none
  retention : Option Nat := none
  items : List Item := []
deriving DecidableEq, Repr

namespace Envelope

def is_empty (e : Envelope) : Bool :=
  e.items.isEmpty

def set_retention (e : Envelope) (r : Nat) : Envelope :=
  { e with retention := some r }

def set_project_id (e : Envelope) (pid : Nat) : Envelope :=
  { e with meta := { e.meta with project_id := some pid } }

/-- `take_item_by`: remove and return the first item matching `p`. -/
def takeItemBy (p : Item → Bool) : List Item → Option Item × List Item
  | [] => (none, [])
  | i :: rest =>
    if p i then (some i, rest)
    else
      let (r, l) := takeItemBy p rest
      (r, i :: l)

def take_item_by (e : Envelope) (p : Item → Bool) : Option Item × Envelope :=
  let (r, l) := takeItemBy p e.items
  (r, { e with items := l })

/-- `get_item_by`: the first item matching `p`, left in place. -/
def get_item_by (e : Envelope) (p : Item → Bool) : Option Item :=
  e.items.find? p

def add_item (e : Envelope) (i : Item) : Envelope :=
  { e with items := e.items ++ [i] }

end Envelope

/-! ## Envelope summary, outcome tracking, envelope context -/

/-- Modelled from the spec: `EnvelopeSummary` (crate `utils`, not under
`src/`): per-category counts of an envelope — the event category, the
total attachment byte quantity, and the profile count. -/
structure EnvelopeSummary where
  event_category : Option DataCategory := none
  attachment_quantity : Nat := 0
  profile_quantity : Nat := 0
deriving DecidableEq, Repr

namespace EnvelopeSummary

/-- `EnvelopeSummary::empty()`. -/
def empty : EnvelopeSummary := {}

/-- Modelled from the spec: `EnvelopeSummary::compute` walks the items
and accumulates the event category and attachment/profile quantities. -/
def compute (e : Envelope) : EnvelopeSummary :=
  e.items.foldl
    (fun s i =>
      match i.ty with
      | .event => { s with event_category := some .error }
      | .transaction => { s with event_category := some .transaction }
      | .security => { s with event_category := some .security }
      | .rawSecurity => { s with event_category := some .security }
      | .attachment =>
        { s with attachment_quantity := s.attachment_quantity + i.len }
      | .profile => { s with profile_quantity := s.profile_quantity + 1 }
      | _ => s)
    empty

end EnvelopeSummary

/-- An outcome message for the outcome aggregator (`TrackOutcome`). -/
structure TrackOutcome where
  timestamp : Int
  scoping : Scoping
  outcome : Outcome
  event_id : Option Nat
  remote_addr : Option Int
  category : DataCategory
  quantity : Nat
deriving DecidableEq, Repr

/-- `EnvelopeContext` (`envelopes.rs`): summary + receive time + event id
+ remote address + scoping, used for outcome reporting. -/
structure EnvelopeContext where
  summary : EnvelopeSummary
  received_at : Int
  event_id : Option Nat
  remote_addr : Option Int
  scoping : Scoping
deriving DecidableEq, Repr

namespace EnvelopeContext

/-- `EnvelopeContext::from_request`: partial scoping, empty summary. -/
def from_request (meta : RequestMeta) : EnvelopeContext :=
  { summary := EnvelopeSummary.empty
    received_at := meta.received_at
    event_id := none
    remote_addr := meta.client_addr
    scoping := meta.partial_scoping }

/-- `EnvelopeContext::update`: refresh event id and summary from the
envelope. -/
def update (ctx : EnvelopeContext) (e : Envelope) : EnvelopeContext :=
  { ctx with
    event_id := e.event_id
    summary := EnvelopeSummary.compute e }

/-- `EnvelopeContext::from_envelope`. -/
def from_envelope (e : Envelope) : EnvelopeContext :=
  (from_request e.meta).update e

/-- `EnvelopeContext::scope`. -/
def scope (ctx : EnvelopeContext) (scoping : Scoping) : EnvelopeContext :=
  { ctx with scoping := scoping }

/-- `EnvelopeContext::send_outcomes`: the list of `TrackOutcome` messages
sent to the outcome aggregator, one per populated summary category.
Quantities are truncated to `u32` as in the source (`as u32`). -/
def send_outcomes (ctx : EnvelopeContext) (outcome : Outcome) :
    List TrackOutcome :=
  (match ctx.summary.event_category with
   | some category =>
     [{ timestamp := ctx.received_at
        scoping := ctx.scoping
        outcome := outcome
        event_id := ctx.event_id
        remote_addr := ctx.remote_addr
        category := category
        quantity := 1 }]
   | none => []) ++
  (if ctx.summary.attachment_quantity > 0 then
    [{ timestamp := ctx.received_at
       scoping := ctx.scoping
       outcome := outcome
       event_id := ctx.event_id
       remote_addr := ctx.remote_addr
       category := .attachment
       quantity := ctx.summary.attachment_quantity % 2 ^ 32 }]
   else []) ++
  (if ctx.summary.profile_quantity > 0 then
    [{ timestamp := ctx.received_at
       scoping := ctx.scoping
       outcome := outcome
       event_id := ctx.event_id
       remote_addr := ctx.remote_addr
       category := .profile
       quantity := ctx.summary.profile_quantity % 2 ^ 32 }]
   else [])

end EnvelopeContext

/-- Messages the processor sends to other actors while processing one
envelope: outcome tracking and metric insertion. -/
inductive Msg where
  | track (t : TrackOutcome)
  | insertMetrics (project_key : Nat) (metrics : List Metric)
deriving DecidableEq, Repr

/-- A message list that contains only outcome-tracking messages. -/
def allTrack (l : List Msg) : Prop :=
  ∀ m ∈ l, ∃ t, m = Msg.track t

/-- `relay_sampling::SamplingResult`. -/
inductive SamplingResult where
  | keep
  | drop (rule : Nat)
  | noDecision
deriving DecidableEq, Repr

/-- Modelled from the spec: the out-of-tree collaborators the processor
calls — the release/environment validators of `sentry_release_parser`,
session metric extraction (`metrics_extraction/sessions.rs`), the
dynamic sampler (`utils::should_keep_event`), `FilterStatKey` parsing
(`relay_filter`), serde serializers, and the PII/minidump scrubbers.
They are kept as explicit parameters of the embedding; theorems
quantify over them, witnesses instantiate them. -/
structure Ext where
  validate_release : String → Bool
  validate_environment : String → Bool
  extract_session_metrics :
    SessionAttributes → SessionUpdate → Option String → List Metric
  extract_session_agg_metrics :
    SessionAttributes → SessionAggregateItem → Option String → List Metric
  should_keep_event :
    Event → Option Int → ProjectState → Bool → SamplingResult
  parse_filter_stat_key : String → Option String
  pii_apply : Nat → Option Event → Except Unit (Option Event)
  event_to_json : Option Event → Except Unit Nat
  session_to_json : SessionUpdate → Except Unit Nat
  sessions_to_json : SessionAggregates → Except Unit Nat
  user_report_to_json : Nat → Except Unit Nat
  scrub_minidump_payload : Nat → Nat

/-! ## Processing state -/

/-- Rate limits are opaque to the embedded (non-processing) pipeline;
`RateLimits::new()` is the empty list. -/
abbrev RateLimits := List Nat

/-- `ProcessEnvelopeState`. -/
structure PState where
  envelope : Envelope
  event : Option Event := none
  metrics : MetricsM := {}
  sample_rates : Option (List Nat) := none
  rate_limits : RateLimits := []
  extracted_metrics : List Metric := []
  project_state : ProjectState := {}
  project_id : Nat := 0
  envelope_context : EnvelopeContext
deriving Repr

namespace PState

/-- `ProcessEnvelopeState::creates_event`. -/
def creates_event (st : PState) : Bool :=
  st.envelope.items.any Item.creates_event

/-- `ProcessEnvelopeState::has_event`. -/
def has_event (st : PState) : Bool :=
  st.event.isSome

/-- `ProcessEnvelopeState::event_type`. -/
def event_type (st : PState) : Option EventType :=
  st.event.map (fun ev => ev.ty.getD .default)

/-- `ProcessEnvelopeState::event_category`. -/
def event_category (st : PState) : Option DataCategory :=
  st.event_type.map DataCategory.ofEventType

end PState

/-! ## Session processing -/

/-- `EnvelopeProcessor::validate_attributes`: `none` when the session
must be dropped (invalid release), otherwise the updated attributes and
whether they changed. -/
def validate_attributes (ext : Ext) (client_addr : Option Int)
    (attrs : SessionAttributes) : Option (SessionAttributes × Bool) :=
  if ¬ ext.validate_release attrs.release then none
  else
    let (attrs1, changed1) :=
      match attrs.environment with
      | some env =>
        if ¬ ext.validate_environment env then
          ({ attrs with environment := none }, true)
        else (attrs, false)
      | none => (attrs, false)
    let (attrs2, changed2) :=
      match attrs1.ip_address with
      | some ip =>
        if ip.is_auto then
          ({ attrs1 with ip_address := client_addr.map SessionIp.addr }, true)
        else (attrs1, changed1)
      | none => (attrs1, changed1)
    some (attrs2, changed2)

/-- `EnvelopeProcessor::is_valid_session_timestamp`. -/
def is_valid_session_timestamp (cfg : Config) (received t : Int) : Bool :=
  if received - t > cfg.max_session_secs_in_past then false
  else if t - received > cfg.max_secs_in_future then false
  else true

/-- `Item::set_payload` with a re-serialized session: the payload now
parses only as that session.  The serialized byte length is not
modelled, so `len` is left unchanged. -/
def Item.set_payload_session (i : Item) (raw : Nat) (s : SessionUpdate) : Item :=
  { i with payload := { raw := raw, session := some s } }

def Item.set_payload_session_agg (i : Item) (raw : Nat)
    (s : SessionAggregates) : Item :=
  { i with payload := { raw := raw, sessionAgg := some s } }

/-- The clock phase of `process_session` (§4.3 steps 3–4): apply drift
correction to `started` and `timestamp`, then snap `timestamp` to
`started` when it is earlier. -/
def sessionAfterClock (cdp : ClockDriftProcessor) (s : SessionUpdate) :
    SessionUpdate :=
  let s1 :=
    if cdp.is_drifted then
      { s with
        started := cdp.process_datetime s.started
        timestamp := cdp.process_datetime s.timestamp }
    else s
  if s1.timestamp < s1.started then { s1 with timestamp := s1.started } else s1

/-- The `changed` flag accumulated by the clock phase: set when drift
correction was applied or the timestamp was snapped. -/
def sessionClockChanged (cdp : ClockDriftProcessor) (s : SessionUpdate) :
    Bool :=
  let s1 :=
    if cdp.is_drifted then
      { s with
        started := cdp.process_datetime s.started
        timestamp := cdp.process_datetime s.timestamp }
    else s
  cdp.is_drifted || decide (s1.timestamp < s1.started)

/-- The tail of `process_session` after the clock phase: timestamp
validation, attribute validation, session-metric extraction, the
drop-after-extraction rule, and re-serialization when anything
changed. -/
def process_session_validate (ext : Ext) (cfg : Config) (received : Int)
    (client : Option String) (client_addr : Option Int)
    (metrics_config : SessionMetricsConfig) (item : Item)
    (acc : List Metric) (s2 : SessionUpdate) (changed2 : Bool) :
    Option Item × List Metric :=
  if ¬ (is_valid_session_timestamp cfg received s2.timestamp
        ∧ is_valid_session_timestamp cfg received s2.started) then
    (none, acc)
  else
    match validate_attributes ext client_addr s2.attributes with
    | none => (none, acc)
    | some (attrs, changedA) =>
      let changed3 := changed2 || changedA
      let s3 := { s2 with attributes := attrs }
      let (item1, acc1) :=
        if metrics_config.is_enabled ∧ ¬ item.metrics_extracted then
          ({ item with metrics_extracted := true },
           acc ++ ext.extract_session_metrics s3.attributes s3 client)
        else (item, acc)
      if metrics_config.should_drop ∧ item1.metrics_extracted then
        (none, acc1)
      else if changed3 then
        match ext.session_to_json s3 with
        | .error _ => (none, acc1)
        | .ok raw => (some (item1.set_payload_session raw s3), acc1)
      else (some item1, acc1)

/-- `EnvelopeProcessor::process_session`: validates one `Session` item.
Returns the (possibly mutated) item when it is kept, `none` when it is
dropped, together with the extended extracted-metrics accumulator. -/
def process_session (ext : Ext) (cfg : Config) (received : Int)
    (client : Option String) (client_addr : Option Int)
    (metrics_config : SessionMetricsConfig) (cdp : ClockDriftProcessor)
    (item : Item) (acc : List Metric) : Option Item × List Metric :=
  match item.payload.session with
  | none => (none, acc)
  | some s0 =>
    if s0.sequence = u64Max then (none, acc)
    else
      process_session_validate ext cfg received client client_addr
        metrics_config item acc (sessionAfterClock cdp s0)
        (sessionClockChanged cdp s0)

/-- `EnvelopeProcessor::process_session_aggregates`. -/
def process_session_aggregates (ext : Ext) (cfg : Config) (received : Int)
    (client : Option String) (client_addr : Option Int)
    (metrics_config : SessionMetricsConfig) (cdp : ClockDriftProcessor)
    (item : Item) (acc : List Metric) : Option Item × List Metric :=
  match item.payload.sessionAgg with
  | none => (none, acc)
  | some s0 =>
    let (s1, changed1) :=
      if cdp.is_drifted then
        ({ s0 with
           aggregates := s0.aggregates.map
             (fun a => { a with started := cdp.process_datetime a.started }) },
         true)
      else (s0, false)
    let s2 :=
      { s1 with
        aggregates := s1.aggregates.filter
          (fun a => is_valid_session_timestamp cfg received a.started) }
    if s2.aggregates.isEmpty then (none, acc)
    else
      match validate_attributes ext client_addr s2.attributes with
      | none => (none, acc)
      | some (attrs, changedA) =>
        let changed2 := changed1 || changedA
        let s3 := { s2 with attributes := attrs }
        let (item1, acc1) :=
          if metrics_config.is_enabled ∧ ¬ item.metrics_extracted then
            ({ item with metrics_extracted := ¬ s3.aggregates.isEmpty },
             acc ++ s3.aggregates.foldl
               (fun ms a =>
                 ms ++ ext.extract_session_agg_metrics s3.attributes a client)
               [])
          else (item, acc)
        if metrics_config.should_drop ∧ item1.metrics_extracted then
          (none, acc1)
        else if changed2 then
          match ext.sessions_to_json s3 with
          | .error _ => (none, acc1)
          | .ok raw => (some (item1.set_payload_session_agg raw s3), acc1)
        else (some item1, acc1)

/-- The `retain_items` walk of `process_sessions`, threading the
extracted-metrics accumulator in item order. -/
def processSessionsGo (ext : Ext) (cfg : Config) (received : Int)
    (client : Option String) (client_addr : Option Int)
    (metrics_config : SessionMetricsConfig) (cdp : ClockDriftProcessor) :
    List Item → List Metric → List Item × List Metric
  | [], acc => ([], acc)
  | i :: rest, acc =>
    match i.ty with
    | .session =>
      match process_session ext cfg received client client_addr
          metrics_config cdp i acc with
      | (some i2, acc2) =>
        let (l, a) := processSessionsGo ext cfg received client client_addr
          metrics_config cdp rest acc2
        (i2 :: l, a)
      | (none, acc2) =>
        processSessionsGo ext cfg received client client_addr
          metrics_config cdp rest acc2
    | .sessions =>
      match process_session_aggregates ext cfg received client client_addr
          metrics_config cdp i acc with
      | (some i2, acc2) =>
        let (l, a) := processSessionsGo ext cfg received client client_addr
          metrics_config cdp rest acc2
        (i2 :: l, a)
      | (none, acc2) =>
        processSessionsGo ext cfg received client client_addr
          metrics_config cdp rest acc2
    | _ =>
      let (l, a) := processSessionsGo ext cfg received client client_addr
        metrics_config cdp rest acc
      (i :: l, a)

/-- `EnvelopeProcessor::process_sessions`. -/
def process_sessions (ext : Ext) (cfg : Config) (st : PState) : PState :=
  let received := st.envelope_context.received_at
  let metrics_config := st.project_state.config.session_metrics
  let client := st.envelope.meta.client
  let client_addr := st.envelope.meta.client_addr
  let cdp := (ClockDriftProcessor.new st.envelope.sent_at received).at_least
    MINIMUM_CLOCK_DRIFT
  let (items, ms) := processSessionsGo ext cfg received client client_addr
    metrics_config cdp st.envelope.items st.extracted_metrics
  { st with
    envelope := { st.envelope with items := items }
    extracted_metrics := ms }

/-! ## User reports -/

/-- `EnvelopeProcessor::process_user_reports`: parse and canonically
re-serialize every user report, dropping items that fail either step. -/
def process_user_reports (ext : Ext) (st : PState) : PState :=
  let items := st.envelope.items.filterMap (fun i =>
    if i.ty ≠ ItemType.userReport then some i
    else
      match i.payload.userReport with
      | none => none
      | some r =>
        match ext.user_report_to_json r with
        | .error _ => none
        | .ok raw => some { i with payload := { raw := raw, userReport := some r } })
  { st with envelope := { st.envelope with items := items } }

/-! ## Client reports -/

/-- Aggregation key of merged client-report entries. -/
abbrev OutKey := ClientReportField × String × DataCategory

/-- The merged aggregate: an association list standing for the source's
`BTreeMap<(field, reason, category), quantity>`.  Entries are kept in
first-insertion order; the source emits outcomes in key order instead,
and no theorem below depends on that order. -/
abbrev OutMap := List (OutKey × Nat)

/-- `*output_events.entry(key).or_insert(0) += quantity`. -/
def bumpOut (m : OutMap) (k : OutKey) (q : Nat) : OutMap :=
  match m with
  | [] => [(k, q)]
  | (k2, q2) :: rest =>
    if k2 = k then (k2, q2 + q) :: rest else (k2, q2) :: bumpOut rest k q

/-- The `input_events` chain: discarded, filtered, filtered-sampling and
rate-limited entries of one report, each tagged with its field. -/
def clientReportEntries (r : ClientReportData) :
    List (ClientReportField × DiscardedEvent) :=
  r.discarded_events.map (fun d => (ClientReportField.clientDiscard, d))
    ++ r.filtered_events.map (fun d => (ClientReportField.filtered, d))
    ++ r.filtered_sampling_events.map
      (fun d => (ClientReportField.filteredSampling, d))
    ++ r.rate_limited_events.map (fun d => (ClientReportField.rateLimited, d))

/-- Merge a list of tagged entries into the aggregate, ignoring entries
whose reason exceeds 200 bytes. -/
def mergeEntries (m : OutMap)
    (entries : List (ClientReportField × DiscardedEvent)) : OutMap :=
  entries.foldl
    (fun m fd =>
      if fd.2.reason.utf8ByteSize > 200 then m
      else bumpOut m (fd.1, fd.2.reason, fd.2.category) fd.2.quantity)
    m

/-- The `retain_items` walk of `process_client_reports`: removes every
client-report item, merging parsed reports into the aggregate and
keeping the first reported timestamp. -/
def collectClientReports :
    List Item → OutMap → Option Nat → List Item × OutMap × Option Nat
  | [], m, ts => ([], m, ts)
  | i :: rest, m, ts =>
    if i.ty ≠ ItemType.clientReport then
      let (l, m2, ts2) := collectClientReports rest m ts
      (i :: l, m2, ts2)
    else
      match i.payload.clientReport with
      | some r =>
        collectClientReports rest (mergeEntries m (clientReportEntries r))
          (match ts with
           | some t => some t
           | none => r.timestamp)
      | none => collectClientReports rest m ts

/-- The outcome messages produced from the merged aggregate; entries
whose `(field, reason)` pair decodes to no outcome are skipped. -/
def clientReportOutcomes (ext : Ext) (scoping : Scoping) (ts : Nat)
    (m : OutMap) : List Msg :=
  m.foldr
    (fun e acc =>
      match outcome_from_parts ext.parse_filter_stat_key e.1.1 e.1.2.1 with
      | .ok o =>
        Msg.track
          { timestamp := (ts : Int)
            scoping := scoping
            outcome := o
            event_id := none
            remote_addr := none
            category := e.1.2.2
            quantity := e.2 } :: acc
      | .error _ => acc)
    []

/-- `EnvelopeProcessor::process_client_reports`. -/
def process_client_reports (ext : Ext) (cfg : Config) (st : PState) :
    PState × List Msg :=
  if ¬ (cfg.emit_outcomes_any ∧ cfg.emit_client_outcomes) then
    if cfg.processing_enabled then
      ({ st with
         envelope :=
           { st.envelope with
             items := st.envelope.items.filter
               (fun i => i.ty ≠ ItemType.clientReport) } }, [])
    else (st, [])
  else
    let received := st.envelope_context.received_at
    let cdp := (ClockDriftProcessor.new st.envelope.sent_at received).at_least
      MINIMUM_CLOCK_DRIFT
    let col := collectClientReports st.envelope.items [] none
    let m := col.2.1
    let st2 := { st with envelope := { st.envelope with items := col.1 } }
    if m.isEmpty then (st2, [])
    else
      let ts1 := col.2.2.getD (received.emod (2 ^ 64)).toNat
      let ts2 := if cdp.is_drifted then cdp.process_timestamp ts1 else ts1
      if received - (ts2 : Int) > cfg.max_secs_in_past then (st2, [])
      else if (ts2 : Int) - received > cfg.max_secs_in_future then (st2, [])
      else (st2, clientReportOutcomes ext st.envelope_context.scoping ts2 m)

/-! ## Profiles and replay recordings -/

/-- `EnvelopeProcessor::parse_profile`, reduced to its success: the
platform-specific parsers live out of tree and are summarized by the
payload's parse view. -/
def parse_profile_ok (i : Item) : Bool :=
  match i.payload.profilePlatform with
  | none => false
  | some p =>
    if p = "android" ∨ p = "cocoa" ∨ p = "typescript" ∨ p = "rust" then
      i.payload.profileParseOk
    else false

/-- One step of the `retain_items` walk of `process_profiles`: whether
the item is kept and the outcome messages it emits. -/
def profile_step (cfg : Config) (profiling_enabled : Bool)
    (ctx : EnvelopeContext) (i : Item) : Option Item × List Msg :=
  match i.ty with
  | ItemType.profile =>
    if ¬ profiling_enabled then (none, [])
    else if cfg.processing_enabled then
      if ¬ parse_profile_ok i then
        (none,
         [Msg.track
            { timestamp := ctx.received_at
              scoping := ctx.scoping
              outcome := .invalid .processProfile
              event_id := ctx.event_id
              remote_addr := ctx.remote_addr
              category := .profile
              quantity := 1 }])
      else (some i, [])
    else (some i, [])
  | _ => (some i, [])

/-- `EnvelopeProcessor::process_profiles`. -/
def process_profiles (cfg : Config) (st : PState) : PState × List Msg :=
  let profiling_enabled := st.project_state.has_feature .profiling
  let ctx := st.envelope_context
  let pr := st.envelope.items.foldr
    (fun i (acc : List Item × List Msg) =>
      (match (profile_step cfg profiling_enabled ctx i).1 with
       | some i2 => i2 :: acc.1
       | none => acc.1, (profile_step cfg profiling_enabled ctx i).2 ++ acc.2))
    ([], [])
  ({ st with envelope := { st.envelope with items := pr.1 } }, pr.2)

/-- `EnvelopeProcessor::process_replay_recordings`. -/
def process_replay_recordings (st : PState) : PState :=
  let replays_enabled := st.project_state.has_feature .replays
  { st with
    envelope :=
      { st.envelope with
        items := st.envelope.items.filter (fun i =>
          match i.ty with
          | ItemType.replayRecording => replays_enabled
          | _ => true) } }

/-! ## Event extraction -/

/-- Modelled from the spec: `Item::forced_event_type` shape of
`ItemType::from_event_type` (`envelope.rs`, not under `src/`): error and
default events serialize as `Event` items, security reports as
`Security`, transactions as `Transaction`. -/
def ItemType.from_event_type : EventType → ItemType
  | .transaction => .transaction
  | .csp => .security
  | .hpkp => .security
  | .expectCt => .security
  | .expectStaple => .security
  | .default => .event
  | .error => .event

/-- `EnvelopeProcessor::is_duplicate`. -/
def is_duplicate (cfg : Config) (i : Item) : Bool :=
  match i.ty with
  | .event => true
  | .transaction => true
  | .security => true
  | .formData => true
  | .rawSecurity => true
  | .unrealReport => cfg.processing_enabled
  | .attachment => false
  | .userReport => false
  | .session => false
  | .sessions => false
  | .metrics => false
  | .metricBuckets => false
  | .clientReport => false
  | .profile => false
  | .replayRecording => false
  | .unknown _ => false

/-- `EnvelopeProcessor::event_from_json_payload`. -/
def event_from_json_payload (item : Item) (event_type : Option EventType) :
    Except ProcessingError (Option Event × Nat) :=
  match item.payload.eventJson with
  | none => .error .invalidJson
  | some ann =>
    .ok (ann.map (fun ev => { ev with ty := event_type }), item.len)

/-- `EnvelopeProcessor::event_from_security_report`. -/
def event_from_security_report (item : Item) :
    Except ProcessingError (Option Event × Nat) :=
  match item.payload.security with
  | .badJson => .error .invalidJson
  | .notSecurity => .error .invalidSecurityType
  | .badReport _ => .error .invalidSecurityReport
  | .ok rty ev0 =>
    let ev1 :=
      match item.sentry_release with
      | some r => { ev0 with release := some r }
      | none => ev0
    let ev2 :=
      match item.sentry_environment with
      | some e => { ev1 with environment := some e }
      | none => ev1
    .ok (some { ev2 with ty := some rty.eventType }, item.len)

/-- `EnvelopeProcessor::extract_attached_event`. -/
def extract_attached_event (cfg : Config) :
    Option Item → Except ProcessingError (Option Event)
  | none => .ok (some {})
  | some item =>
    if item.is_empty then .ok (some {})
    else if item.len > cfg.max_event_size then .error .payloadTooLarge
    else
      match item.payload.attachedEvent with
      | none => .error .invalidMsgpack
      | some ann => .ok ann

/-- `EnvelopeProcessor::parse_msgpack_breadcrumbs`. -/
def parse_msgpack_breadcrumbs (cfg : Config) :
    Option Item → Except ProcessingError (List Crumb)
  | none => .ok []
  | some item =>
    if item.is_empty then .ok []
    else if item.len > cfg.max_event_size then .error .payloadTooLarge
    else
      match item.payload.crumbs with
      | none => .error .invalidMsgpack
      | some l => .ok l

/-- The last timestamp occurring in a breadcrumb sequence
(`iter().rev().find_map(...)`). -/
def lastCrumbTimestamp (l : List Crumb) : Option Int :=
  l.reverse.findSome? (fun c => c.value.bind (fun v => v.timestamp))

/-- Rust's `Option` order restricted to a strict `>`: `None` sorts below
every `Some`. -/
def optGt : Option Int → Option Int → Bool
  | some a, some b => a > b
  | some _, none => true
  | none, _ => false

/-- `EnvelopeProcessor::event_from_attachments`. -/
def event_from_attachments (cfg : Config) (event_item : Option Item)
    (breadcrumbs_item1 breadcrumbs_item2 : Option Item) :
    Except ProcessingError (Option Event × Nat) := do
  let len := (event_item.map Item.len).getD 0
    + (breadcrumbs_item1.map Item.len).getD 0
    + (breadcrumbs_item2.map Item.len).getD 0
  let event ← extract_attached_event cfg event_item
  let breadcrumbs1 ← parse_msgpack_breadcrumbs cfg breadcrumbs_item1
  let breadcrumbs2 ← parse_msgpack_breadcrumbs cfg breadcrumbs_item2
  let timestamp1 := lastCrumbTimestamp breadcrumbs1
  let timestamp2 := lastCrumbTimestamp breadcrumbs2
  let (b1, b2) :=
    if optGt timestamp1 timestamp2 then (breadcrumbs2, breadcrumbs1)
    else (breadcrumbs1, breadcrumbs2)
  let max_length := max b1.length b2.length
  let merged := b1 ++ b2
  let merged :=
    if merged.length > max_length then
      merged.drop (merged.length - max_length)
    else merged
  if ¬ merged.isEmpty then
    let ev := event.getD {}
    return (some { ev with breadcrumbs := some merged }, len)
  return (event, len)

/-- `EnvelopeProcessor::extract_event`: removes all candidate items,
checks the remainder for duplicates, and selects the event source in
strict precedence. -/
def extract_event (cfg : Config) (st : PState) :
    Except ProcessingError PState :=
  let (event_item, env1) :=
    st.envelope.take_item_by (fun i => i.ty = ItemType.event)
  let (transaction_item, env2) :=
    env1.take_item_by (fun i => i.ty = ItemType.transaction)
  let (security_item, env3) :=
    env2.take_item_by (fun i => i.ty = ItemType.security)
  let (raw_security_item, env4) :=
    env3.take_item_by (fun i => i.ty = ItemType.rawSecurity)
  let (form_item, env5) :=
    env4.take_item_by (fun i => i.ty = ItemType.formData)
  let (attachment_item, env6) :=
    env5.take_item_by
      (fun i => i.attachment_type = some AttachmentType.eventPayload)
  let (breadcrumbs1, env7) :=
    env6.take_item_by
      (fun i => i.attachment_type = some AttachmentType.breadcrumbs)
  let (breadcrumbs2, env8) :=
    env7.take_item_by
      (fun i => i.attachment_type = some AttachmentType.breadcrumbs)
  match env8.get_item_by (is_duplicate cfg) with
  | some dup => .error (.duplicateItem dup.ty)
  | none =>
    let finish := fun (rates : Option (List Nat))
        (r : Except ProcessingError (Option Event × Nat)) =>
      match r with
      | .error e => Except.error e
      | .ok (ev, event_len) =>
        Except.ok
          { st with
            envelope := env8
            sample_rates := rates
            event := ev
            metrics :=
              { st.metrics with bytes_ingested_event := some event_len } }
    match event_item.or security_item with
    | some item =>
      let (rates, item2) := item.take_sample_rates
      finish rates (event_from_json_payload item2 none)
    | none =>
      match transaction_item with
      | some item =>
        let (rates, item2) := item.take_sample_rates
        finish rates (event_from_json_payload item2 (some .transaction))
      | none =>
        match raw_security_item with
        | some item =>
          let (rates, item2) := item.take_sample_rates
          finish rates (event_from_security_report item2)
        | none =>
          if attachment_item.isSome ∨ breadcrumbs1.isSome
              ∨ breadcrumbs2.isSome then
            finish st.sample_rates
              (event_from_attachments cfg attachment_item breadcrumbs1
                breadcrumbs2)
          else
            match form_item with
            | some item =>
              finish st.sample_rates (.ok (item.payload.formEvent, item.len))
            | none => finish st.sample_rates (.ok (none, 0))

/-! ## Event finalization -/

/-- Modelled from the spec: the clock-drift processor run over the event
tree by `process_value` (§4.2: when active, every datetime in the tree
is offset by the drift; the fields the embedding tracks are the event
timestamp and breadcrumb timestamps). -/
def Event.applyDrift (cdp : ClockDriftProcessor) (ev : Event) : Event :=
  if cdp.is_drifted then
    { ev with
      timestamp := ev.timestamp.map cdp.process_datetime
      breadcrumbs := ev.breadcrumbs.map (List.map (fun c =>
        { value := c.value.map (fun v =>
            { v with timestamp := v.timestamp.map cdp.process_datetime }) })) }
  else ev

/-- `EnvelopeProcessor::finalize_event`. -/
def finalize_event (cfg : Config) (st : PState) :
    Except ProcessingError PState :=
  let is_transaction := st.event_type = some EventType.transaction
  match st.event with
  | none =>
    if ¬ cfg.processing_enabled then .ok st else .error .noEventPayload
  | some ev0 =>
    let ev1 :=
      if ¬ cfg.processing_enabled then
        { ev0 with
          ingest_path := some ((ev0.ingest_path.getD []) ++
            [{ version := cfg.relay_version, public_key := cfg.public_key }]) }
      else ev0
    let event_id := st.envelope.event_id.getD 0
    let ev2 := { ev1 with id := some event_id }
    let (st1, ev3) :=
      if cfg.processing_enabled then
        let metrics0 := st.metrics
        let attachment_size : Nat :=
          (st.envelope.items.filter
            (fun i => i.attachment_type = some AttachmentType.attachment)
          ).foldl (fun n i => n + i.len) 0
        let metrics1 :=
          if attachment_size > 0 then
            { metrics0 with
              bytes_ingested_event_attachment := some attachment_size }
          else metrics0
        let metrics2 :=
          match st.sample_rates with
          | some rs =>
            { metrics1 with
              sample_rates := some ((metrics1.sample_rates.getD []) ++ rs) }
          | none => metrics1
        ({ st with metrics := {}, sample_rates := none },
         { ev2 with metricsField := some metrics2 })
      else (st, ev2)
    let sent_at :=
      match st.envelope.sent_at with
      | some s => some s
      | none => if is_transaction then ev3.timestamp else none
    let cdp := (ClockDriftProcessor.new sent_at
      st.envelope_context.received_at).at_least MINIMUM_CLOCK_DRIFT
    .ok { st1 with event := some (Event.applyDrift cdp ev3) }

/-! ## Sampling, scrubbing, serialization -/

/-- Results of one pipeline stage: the state as mutated so far, the
messages it sent, and the error it stopped at, if any. -/
abbrev StageRes := PState × List Msg × Option ProcessingError

def StageRes.okSt (st : PState) : StageRes := (st, [], none)

/-- Sequencing of stages over a mutable state: a stage runs only when no
earlier stage errored; messages accumulate. -/
def andThen (r : StageRes) (f : PState → StageRes) : StageRes :=
  match r with
  | (st, msgs, none) =>
    let (st2, msgs2, e) := f st
    (st2, msgs ++ msgs2, e)
  | (st, msgs, some e) => (st, msgs, some e)

def exceptStage (f : PState → Except ProcessingError PState)
    (st : PState) : StageRes :=
  match f st with
  | .ok st2 => (st2, [], none)
  | .error e => (st, [], some e)

/-- `EnvelopeProcessor::sample_event`. -/
def sample_event (ext : Ext) (cfg : Config) (st : PState) : StageRes :=
  match st.event with
  | none => (st, [], none)
  | some ev =>
    match ext.should_keep_event ev st.envelope.meta.client_addr
        st.project_state cfg.processing_enabled with
    | .drop rule =>
      (st,
       (st.envelope_context.send_outcomes (.filteredSampling rule)).map
         Msg.track,
       some (.eventSampled rule))
    | .keep => (st, [], none)
    | .noDecision => (st, [], none)

/-- `EnvelopeProcessor::scrub_event`: the custom PII config followed by
the data-scrubbing config, both applied by the out-of-tree processor. -/
def scrub_event (ext : Ext) (st : PState) : Except ProcessingError PState := do
  let config := st.project_state.config
  let ev1 ←
    match config.pii_config with
    | some c =>
      match ext.pii_apply c st.event with
      | .ok ev => pure ev
      | .error _ => throw ProcessingError.processingFailed
    | none => pure st.event
  let ev2 ←
    match config.datascrubbing_pii_config with
    | some c =>
      match ext.pii_apply c ev1 with
      | .ok ev => pure ev
      | .error _ => throw ProcessingError.processingFailed
    | none => pure ev1
  return { st with event := ev2 }

/-- `EnvelopeProcessor::serialize_event`. -/
def serialize_event (ext : Ext) (st : PState) :
    Except ProcessingError PState :=
  match ext.event_to_json st.event with
  | .error _ => .error .serializeFailed
  | .ok raw =>
    let event_type := st.event_type.getD .default
    let item0 : Item :=
      { ty := ItemType.from_event_type event_type
        payload := { raw := raw, eventJson := some st.event } }
    let item1 :=
      match st.sample_rates with
      | some r => { item0 with sample_rates := some r }
      | none => item0
    .ok { st with
          sample_rates := none
          envelope := st.envelope.add_item item1 }

/-- Replace the first item matching `p` (the `get_item_by_mut` call of
`scrub_attachments`). -/
def mapFirstItem (p : Item → Bool) (f : Item → Item) : List Item → List Item
  | [] => []
  | i :: rest => if p i then f i :: rest else i :: mapFirstItem p f rest

/-- `EnvelopeProcessor::scrub_attachments`: with a PII config present,
the minidump attachment's payload is rewritten in place (scrubbing
itself is out of tree and abstracted); the item set is unchanged. -/
def scrub_attachments (ext : Ext) (st : PState) : PState :=
  match st.project_state.config.pii_config with
  | none => st
  | some _ =>
    { st with
      envelope :=
        { st.envelope with
          items := mapFirstItem
            (fun i => i.attachment_type = some AttachmentType.minidump)
            (fun i =>
              { i with payload :=
                  { i.payload with
                    raw := ext.scrub_minidump_payload i.payload.raw } })
            st.envelope.items } }

/-! ## The pipeline driver -/

/-- `EnvelopeProcessor::process_state`, as compiled without the
`processing` cargo feature: the `if_processing!` blocks (unreal
expansion, placeholders, transaction metrics, store normalization,
inbound filters, quota enforcement) are absent.  Runtime
`processing_enabled` branches inside the remaining stages are kept. -/
def process_state (ext : Ext) (cfg : Config) (st : PState) : StageRes :=
  let r := StageRes.okSt st
  let r := andThen r (fun s => StageRes.okSt (process_sessions ext cfg s))
  let r := andThen r (fun s =>
    ((process_client_reports ext cfg s).1,
     (process_client_reports ext cfg s).2, none))
  let r := andThen r (fun s => StageRes.okSt (process_user_reports ext s))
  let r := andThen r (fun s =>
    ((process_profiles cfg s).1, (process_profiles cfg s).2, none))
  let r := andThen r (fun s => StageRes.okSt (process_replay_recordings s))
  let r := andThen r (fun s =>
    if s.creates_event then
      let r2 := andThen (StageRes.okSt s) (exceptStage (extract_event cfg))
      let r2 := andThen r2 (exceptStage (finalize_event cfg))
      andThen r2 (sample_event ext cfg)
    else StageRes.okSt s)
  let r := andThen r (fun s =>
    if s.has_event then
      let r2 := andThen (StageRes.okSt s) (exceptStage (scrub_event ext))
      andThen r2 (exceptStage (serialize_event ext))
    else StageRes.okSt s)
  andThen r (fun s => StageRes.okSt (scrub_attachments ext s))

/-- The `ProcessEnvelope` message. -/
structure ProcessEnvelopeMsg where
  envelope : Envelope
  project_state : ProjectState
  scoping : Scoping
deriving Repr

/-- `ProcessEnvelopeResponse`. -/
structure ProcessEnvelopeResponse where
  envelope : Option Envelope
  rate_limits : RateLimits
deriving DecidableEq, Repr

/-- `EnvelopeProcessor::prepare_state`. -/
def prepare_state (_cfg : Config) (message : ProcessEnvelopeMsg) :
    Except ProcessingError PState :=
  let env0 := message.envelope
  let env1 :=
    match message.project_state.config.event_retention with
    | some r => env0.set_retention r
    | none => env0
  match message.project_state.project_id <|> env1.meta.project_id with
  | none => .error .missingProjectId
  | some project_id =>
    let env2 := env1.set_project_id project_id
    let ctx := (EnvelopeContext.from_envelope env2).scope message.scoping
    .ok
      { envelope := env2
        event := none
        metrics := {}
        sample_rates := none
        rate_limits := []
        extracted_metrics := []
        project_state := message.project_state
        project_id := project_id
        envelope_context := ctx }

/-- `EnvelopeProcessor::process`: the driver.  Returns the messages sent
to the outcome aggregator and project cache together with the result. -/
def process (ext : Ext) (cfg : Config) (message : ProcessEnvelopeMsg) :
    List Msg × Except ProcessingError ProcessEnvelopeResponse :=
  match prepare_state cfg message with
  | .error e => ([], .error e)
  | .ok st =>
    let ctx := st.envelope_context
    let (st2, msgs, e) := process_state ext cfg st
    match e with
    | none =>
      let mm :=
        if ¬ st2.extracted_metrics.isEmpty then
          [Msg.insertMetrics ctx.scoping.project_key st2.extracted_metrics]
        else []
      (msgs ++ mm,
       .ok
         { envelope :=
             if st2.envelope.is_empty then none else some st2.envelope
           rate_limits := st2.rate_limits })
    | some err =>
      let om :=
        match err.to_outcome with
        | some o => (ctx.send_outcomes o).map Msg.track
        | none => []
      let mm :=
        if ¬ st2.extracted_metrics.isEmpty ∧ err.should_keep_metrics then
          [Msg.insertMetrics ctx.scoping.project_key st2.extracted_metrics]
        else []
      (msgs ++ om ++ mm, .error err)

/-! ## Spec-side vocabulary for the breadcrumb-merge claim -/

/-- The last `n` entries of a list, read off from the tail. -/
def lastN {α : Type} (n : Nat) (l : List α) : List α :=
  (l.reverse.take n).reverse

/-- The merge order stated by the spec: the two breadcrumb sequences are
concatenated with the sequence having the later last timestamp placed
second. -/
def breadcrumbOrdered (l1 l2 : List Crumb) : List Crumb :=
  if optGt (lastCrumbTimestamp l1) (lastCrumbTimestamp l2) then l2 ++ l1
  else l1 ++ l2

/-! ## Concrete instantiations used to evaluate the embedding -/

/-- A benign instantiation of the out-of-tree collaborators: every
validator accepts, serialization succeeds, the sampler reaches no
decision, session metric extraction yields a single marker metric. -/
def extTriv : Ext where
  validate_release := fun _ => true
  validate_environment := fun _ => true
  extract_session_metrics := fun _ _ _ => [1]
  extract_session_agg_metrics := fun _ _ _ => [2]
  should_keep_event := fun _ _ _ _ => .noDecision
  parse_filter_stat_key := fun _ => none
  pii_apply := fun _ ev => .ok ev
  event_to_json := fun _ => .ok 7
  session_to_json := fun _ => .ok 8
  sessions_to_json := fun _ => .ok 9
  user_report_to_json := fun r => .ok r
  scrub_minidump_payload := fun r => r

/-- Like `extTriv` but with a sampler that drops by rule 7. -/
def extDrop : Ext :=
  { extTriv with should_keep_event := fun _ _ _ _ => .drop 7 }

/-- A small non-processing configuration. -/
def cfgTriv : Config where
  max_session_secs_in_past := 100
  max_secs_in_past := 100
  max_secs_in_future := 60
  max_event_size := 1000
  processing_enabled := false
  emit_outcomes_any := true
  emit_client_outcomes := true
  relay_version := "tv"
  public_key := none

/-- An envelope context with an empty summary. -/
def ctxTriv : EnvelopeContext where
  summary := {}
  received_at := 1000
  event_id := none
  remote_addr := none
  scoping := {}

/-- A reason string of 201 bytes. -/
def longReason : String := ⟨List.replicate 201 'a'⟩

def eOkC4 : DiscardedEvent :=
  { reason := "queue_full", category := .error, quantity := 42 }

def eLongC4 : DiscardedEvent :=
  { reason := longReason, category := .error, quantity := 1 }

def itemC4 : Item :=
  { ty := .clientReport
    payload := { clientReport := some { discarded_events := [eLongC4, eOkC4] } } }

def stC4 : PState :=
  { envelope := { items := [itemC4] }, envelope_context := ctxTriv }

def stC8 : PState :=
  { envelope := { event_id := some 42 }
    event := some {}
    envelope_context := ctxTriv }

/-- A breadcrumb with an optional timestamp and a distinguishing tag. -/
def crumb (t : Option Int) (tag : Nat) : Crumb :=
  { value := some { timestamp := t, tag := tag } }

/-- A breadcrumbs attachment item with the given decoded sequence. -/
def bcItem (l : List Crumb) : Item :=
  { ty := .attachment
    attachment_ty := some .breadcrumbs
    len := 1
    payload := { crumbs := some l } }

def l1C6 : List Crumb := [crumb (some 10) 1, crumb (some 30) 2]

def l2C6 : List Crumb := [crumb (some 5) 3, crumb (some 20) 4, crumb (some 25) 5]

def itemEventC3 : Item :=
  { ty := .event, payload := { eventJson := some (some {}) } }

def itemRawSecC3 : Item :=
  { ty := .rawSecurity, payload := { security := .ok .csp {} } }

def stC3 : PState :=
  { envelope := { items := [itemEventC3, itemRawSecC3] }
    envelope_context := ctxTriv }

/-- A session with in-range timestamps, a validating release, and an
overflowing sequence number. -/
def sessC2 : SessionUpdate :=
  { started := 1000
    timestamp := 1000
    sequence := u64Max
    attributes := { release := "1.0" } }

def itemC2 : Item := { ty := .session, payload := { session := some sessC2 } }

def stC2 : PState :=
  { envelope := { items := [itemC2] }, envelope_context := ctxTriv }

/-- The same session with an ordinary sequence number. -/
def sessC2v : SessionUpdate := { sessC2 with sequence := 0 }

def itemC2v : Item :=
  { ty := .session, payload := { session := some sessC2v } }

def eventItemC1 : Item :=
  { ty := .event, payload := { eventJson := some (some {}) } }

/-- A project with session-metric extraction enabled. -/
def psC1 : ProjectState :=
  { project_id := some 1
    config := { session_metrics := ⟨true, false⟩ } }

def envC1 : Envelope :=
  { meta := { project_id := some 1, received_at := 1000 }
    items := [itemC2v, eventItemC1] }

def msgC1 : ProcessEnvelopeMsg :=
  { envelope := envC1, project_state := psC1, scoping := {} }

/-- An envelope with no items at all. -/
def msgC9 : ProcessEnvelopeMsg :=
  { envelope := { meta := { project_id := some 1, received_at := 1000 } }
    project_state := {}
    scoping := {} }

/-! # Theorems -/

theorem stripStart_go_eq_some (p s t : List Char) :
    stripStart.go p s = some t ↔ s = p ++ t := by
  induction p generalizing s with
  | nil => simp [stripStart.go]
  | cons c cs ih =>
    cases s with
    | nil => simp [stripStart.go]
    | cons d ds =>
      by_cases h : c = d
      · subst h
        simp [stripStart.go, ih]
      · simp [stripStart.go, h, Ne.symm h]

theorem stripStart_eq_some (p s t : String) :
    stripStart p s = some t ↔ s = p ++ t := by
  constructor
  · intro h
    obtain ⟨l, hl, hcast⟩ := Option.map_eq_some'.mp h
    have := (stripStart_go_eq_some p.data s.data l).mp hl
    apply String.ext
    simp [← hcast, this]
  · intro h
    subst h
    have hgo : stripStart.go p.data (p.data ++ t.data) = some t.data :=
      (stripStart_go_eq_some _ _ _).mpr rfl
    simp [stripStart]
    exact ⟨t.data, hgo, rfl⟩

/-- C5: `outcome_from_parts(FilteredSampling, reason)` returns
`FilteredSampling(id)` exactly when the reason has the form
`Sampled:<u64>` with `id` the parsed integer, and an error otherwise;
`outcome_from_parts(RateLimited, "")` returns `RateLimited(None)`, and
a non-empty reason yields `RateLimited(Some(reason))`. -/
theorem C5_outcome_from_parts (pfk : String → Option String)
    (reason : String) :
    (∀ id : Nat,
      outcome_from_parts pfk .filteredSampling reason
          = .ok (.filteredSampling id)
        ↔ ∃ s, reason = "Sampled:" ++ s ∧ parseU64 s = some id)
    ∧ ((∀ id : Nat, ¬ ∃ s, reason = "Sampled:" ++ s ∧ parseU64 s = some id) →
        outcome_from_parts pfk .filteredSampling reason = .error ())
    ∧ outcome_from_parts pfk .rateLimited "" = .ok (.rateLimited none)
    ∧ (reason ≠ "" →
        outcome_from_parts pfk .rateLimited reason
          = .ok (.rateLimited (some reason))) := by
  refine ⟨?_, ?_, ?_, ?_⟩
  · intro id
    cases h : stripStart "Sampled:" reason with
    | none =>
      simp only [outcome_from_parts, h]
      constructor
      · intro hfalse
        cases hfalse
      · rintro ⟨s, rfl, _⟩
        rw [(stripStart_eq_some "Sampled:" _ s).mpr rfl] at h
        cases h
    | some t =>
      have ht : reason = "Sampled:" ++ t := (stripStart_eq_some _ _ _).mp h
      simp only [outcome_from_parts, h]
      cases hp : parseU64 t with
      | none =>
        constructor
        · intro hfalse
          cases hfalse
        · rintro ⟨s, hs, hps⟩
          have h1 := (stripStart_eq_some "Sampled:" reason s).mpr hs
          rw [h] at h1
          cases h1
          rw [hp] at hps
          cases hps
      | some id2 =>
        constructor
        · intro hok
          refine ⟨t, ht, ?_⟩
          cases hok
          exact hp
        · rintro ⟨s, hs, hps⟩
          have h1 := (stripStart_eq_some "Sampled:" reason s).mpr hs
          rw [h] at h1
          cases h1
          rw [hp] at hps
          cases hps
          rfl
  · intro hno
    cases h : stripStart "Sampled:" reason with
    | none => simp only [outcome_from_parts, h]
    | some t =>
      have ht : reason = "Sampled:" ++ t := (stripStart_eq_some _ _ _).mp h
      simp only [outcome_from_parts, h]
      cases hp : parseU64 t with
      | none => rfl
      | some id2 => exact absurd ⟨t, ht, hp⟩ (hno id2)
  · rfl
  · intro hne
    simp only [outcome_from_parts, if_neg hne]

/-- Witness for C5 at concrete reasons. -/
theorem C5_outcome_from_parts_witness :
    outcome_from_parts (fun _ => none) .filteredSampling "Sampled:123"
        = .ok (.filteredSampling 123)
    ∧ outcome_from_parts (fun _ => none) .filteredSampling "Sampled:foo"
        = .error ()
    ∧ outcome_from_parts (fun _ => none) .rateLimited "quota"
        = .ok (.rateLimited (some "quota")) := by
  refine ⟨?_, ?_, ?_⟩
  · exact ((C5_outcome_from_parts (fun _ => none) "Sampled:123").1 123).mpr
      ⟨"123", rfl, by decide⟩
  · refine (C5_outcome_from_parts (fun _ => none) "Sampled:foo").2.1 ?_
    rintro id ⟨s, hs, hps⟩
    have h1 := (stripStart_eq_some "Sampled:" "Sampled:foo" s).mpr hs
    have h2 : stripStart "Sampled:" "Sampled:foo" = some "foo" := by decide
    rw [h2] at h1
    cases h1
    have hfoo : parseU64 "foo" = none := by decide
    rw [hfoo] at hps
    cases hps
  · exact (C5_outcome_from_parts (fun _ => none) "quota").2.2.2 (by decide)

/-- C7: the clock-drift corrector that `process_sessions` builds from the
envelope's `sent_at` header and the receive time (via
`ClockDriftProcessor::new(..).at_least(MINIMUM_CLOCK_DRIFT)`) is active
iff `|received - sent| ≥ 55` minutes, and when active it offsets a
datetime by `+drift`; a drift of 56 minutes is corrected, one of 54
minutes is not. -/
theorem C7_clock_drift_threshold (sent received : Int) :
    (((ClockDriftProcessor.new (some sent) received).at_least
          MINIMUM_CLOCK_DRIFT).is_drifted = true
      ↔ |received - sent| ≥ MINIMUM_CLOCK_DRIFT)
    ∧ (∀ t : Int,
        |received - sent| ≥ MINIMUM_CLOCK_DRIFT →
        ((ClockDriftProcessor.new (some sent) received).at_least
            MINIMUM_CLOCK_DRIFT).process_datetime t = t + (received - sent))
    ∧ (((ClockDriftProcessor.new (some 0) (56 * 60)).at_least
          MINIMUM_CLOCK_DRIFT).is_drifted = true)
    ∧ (((ClockDriftProcessor.new (some 0) (54 * 60)).at_least
          MINIMUM_CLOCK_DRIFT).is_drifted = false) := by
  refine ⟨?_, ?_, by decide, by decide⟩
  · simp [ClockDriftProcessor.new, ClockDriftProcessor.at_least,
      ClockDriftProcessor.is_drifted, Option.filter, ge_iff_le, decide_eq_true_eq]
  · intro t h
    simp [ClockDriftProcessor.new, ClockDriftProcessor.at_least,
      ClockDriftProcessor.process_datetime, Option.filter, h]

/-- C10: `send_outcomes` emits nothing when the summary records no event
category and zero attachment and profile quantities; in particular a
context built by `from_request` emits nothing. -/
theorem C10_send_outcomes_empty (ctx : EnvelopeContext) (o o2 : Outcome)
    (meta : RequestMeta)
    (h1 : ctx.summary.event_category = none)
    (h2 : ctx.summary.attachment_quantity = 0)
    (h3 : ctx.summary.profile_quantity = 0) :
    ctx.send_outcomes o = []
    ∧ (EnvelopeContext.from_request meta).send_outcomes o2 = [] := by
  constructor
  · simp [EnvelopeContext.send_outcomes, h1, h2, h3]
  · simp [EnvelopeContext.send_outcomes, EnvelopeContext.from_request,
      EnvelopeSummary.empty]

/-- Witness for C10 at a concrete context and request metadata. -/
theorem C10_send_outcomes_empty_witness :
    ctxTriv.send_outcomes .abuse = []
    ∧ (EnvelopeContext.from_request {}).send_outcomes .abuse = [] :=
  C10_send_outcomes_empty ctxTriv .abuse .abuse {} rfl rfl rfl

theorem mergeEntries_append (m : OutMap)
    (a b : List (ClientReportField × DiscardedEvent)) :
    mergeEntries m (a ++ b) = mergeEntries (mergeEntries m a) b := by
  simp [mergeEntries, List.foldl_append]

theorem mergeEntries_skip (m : OutMap)
    (l1 l2 : List (ClientReportField × DiscardedEvent))
    (f : ClientReportField) (e : DiscardedEvent)
    (h : e.reason.utf8ByteSize > 200) :
    mergeEntries m (l1 ++ (f, e) :: l2) = mergeEntries m (l1 ++ l2) := by
  rw [mergeEntries_append, mergeEntries_append]
  show mergeEntries _ ((f, e) :: l2) = mergeEntries _ l2
  simp only [mergeEntries, List.foldl_cons]
  rw [if_pos h]

theorem collectClientReports_replace (i i2 : Item) (r r2 : ClientReportData)
    (hty : i.ty = ItemType.clientReport)
    (hty2 : i2.ty = ItemType.clientReport)
    (hpr : i.payload.clientReport = some r)
    (hpr2 : i2.payload.clientReport = some r2)
    (hts : r2.timestamp = r.timestamp)
    (hmerge : ∀ m, mergeEntries m (clientReportEntries r2)
      = mergeEntries m (clientReportEntries r))
    (itemsPre itemsSuf : List Item) :
    ∀ m ts, collectClientReports (itemsPre ++ i :: itemsSuf) m ts
      = collectClientReports (itemsPre ++ i2 :: itemsSuf) m ts := by
  induction itemsPre with
  | nil =>
    intro m ts
    simp only [List.nil_append, collectClientReports, hty, hty2, hpr, hpr2,
      hts, hmerge, ne_eq, not_true_eq_false, if_false, ite_false]
  | cons j rest ih =>
    intro m ts
    simp only [List.cons_append, collectClientReports]
    by_cases hj : j.ty ≠ ItemType.clientReport
    · simp only [if_pos hj, List.append_eq, ih]
    · simp only [if_neg hj]
      cases j.payload.clientReport with
      | some rj => exact ih _ _
      | none => exact ih _ _

/-- C4: with outcome emission enabled, a discarded-event entry whose
reason exceeds 200 bytes contributes nothing to the merged
`(field, reason, category)` aggregate and produces no outcome: removing
it from its client report leaves the result of
`process_client_reports` — state and messages — unchanged. -/
theorem C4_overlong_reason_dropped (ext : Ext) (cfg : Config) (st : PState)
    (itemsPre itemsSuf : List Item) (i : Item) (r : ClientReportData)
    (pre suf : List DiscardedEvent) (e : DiscardedEvent)
    (hemit : cfg.emit_outcomes_any = true ∧ cfg.emit_client_outcomes = true)
    (hty : i.ty = ItemType.clientReport)
    (hpr : i.payload.clientReport = some r)
    (hdisc : r.discarded_events = pre ++ e :: suf)
    (hlong : e.reason.utf8ByteSize > 200)
    (hitems : st.envelope.items = itemsPre ++ i :: itemsSuf) :
    process_client_reports ext cfg st
      = process_client_reports ext cfg
          { st with envelope := { st.envelope with items := itemsPre ++ ({ i with payload := { i.payload with clientReport := some { r with discarded_events := pre ++ suf } } } :: itemsSuf) } } := by
  have hmerge : ∀ m,
      mergeEntries m
        (clientReportEntries { r with discarded_events := pre ++ suf })
      = mergeEntries m (clientReportEntries r) := by
    intro m
    simp only [clientReportEntries, hdisc, List.map_append, List.map_cons,
      List.append_assoc, List.cons_append]
    exact (mergeEntries_skip m _ _ _ _ hlong).symm
  have hcol := collectClientReports_replace i { i with payload := { i.payload with clientReport := some { r with discarded_events := pre ++ suf } } } r { r with discarded_events := pre ++ suf } hty hty hpr rfl rfl hmerge itemsPre itemsSuf
  simp only [process_client_reports, hemit.1, hemit.2, and_self,
    not_true_eq_false, if_false, hitems, hcol]

set_option maxRecDepth 4000 in
/-- Witness for C4: a client report whose first discarded-event entry has
a 201-byte reason processes exactly as the report without that entry. -/
theorem C4_overlong_reason_dropped_witness :
    process_client_reports extTriv cfgTriv stC4
      = process_client_reports extTriv cfgTriv
          { stC4 with envelope := { stC4.envelope with items :=
              [{ itemC4 with payload := { itemC4.payload with
                  clientReport := some { discarded_events := [eOkC4] } } }] } } :=
  C4_overlong_reason_dropped extTriv cfgTriv stC4 [] [] itemC4
    { discarded_events := [eLongC4, eOkC4] } [] [eOkC4] eLongC4
    ⟨rfl, rfl⟩ rfl rfl rfl (by decide) rfl

theorem Event.applyDrift_id (cdp : ClockDriftProcessor) (ev : Event) :
    (Event.applyDrift cdp ev).id = ev.id := by
  unfold Event.applyDrift
  split <;> rfl

/-- C8: whenever the extracted event is present, `finalize_event`
overwrites the event's id with the envelope's event identifier
unconditionally, and leaves the envelope's event identifier exactly as
it was before the stage. -/
theorem C8_finalize_event_id (cfg : Config) (st : PState) (ev : Event)
    (h : st.event = some ev) :
    ∃ st2 ev2, finalize_event cfg st = .ok st2
      ∧ st2.event = some ev2
      ∧ ev2.id = some (st.envelope.event_id.getD 0)
      ∧ st2.envelope.event_id = st.envelope.event_id
      ∧ (∀ eid, st.envelope.event_id = some eid → ev2.id = some eid) := by
  cases hp : cfg.processing_enabled
  all_goals simp only [finalize_event, h, hp, Bool.not_false, Bool.not_true,
    Bool.false_eq_true, Bool.true_eq_false, not_false_eq_true,
    not_true_eq_false, if_true, if_false, ite_true, ite_false]
  all_goals refine ⟨_, _, rfl, rfl, ?_, rfl, ?_⟩
  case false.refine_1 => rw [Event.applyDrift_id]
  case false.refine_2 =>
    intro eid heid
    rw [Event.applyDrift_id]
    simp [heid]
  case true.refine_1 => rw [Event.applyDrift_id]
  case true.refine_2 =>
    intro eid heid
    rw [Event.applyDrift_id]
    simp [heid]

/-- Witness for C8 at a concrete state whose envelope carries id 42. -/
theorem C8_finalize_event_id_witness :
    ∃ st2 ev2, finalize_event cfgTriv stC8 = .ok st2
      ∧ st2.event = some ev2
      ∧ ev2.id = some 42
      ∧ st2.envelope.event_id = some 42 := by
  obtain ⟨st2, ev2, h1, h2, h3, h4, h5⟩ :=
    C8_finalize_event_id cfgTriv stC8 {} rfl
  exact ⟨st2, ev2, h1, h2, h5 42 rfl, h4⟩

theorem lastN_eq_drop {α : Type} (n : Nat) (l : List α) :
    lastN n l = l.drop (l.length - n) := by
  rw [lastN, ← List.rtake_eq_reverse_take_reverse, List.rtake]

theorem truncIf_eq_lastN {α : Type} (n : Nat) (l : List α) (h : n ≤ l.length) :
    (if l.length > n then l.drop (l.length - n) else l) = lastN n l := by
  rw [lastN_eq_drop]
  by_cases hgt : l.length > n
  · rw [if_pos hgt]
  · rw [if_neg hgt]
    have h0 : l.length - n = 0 := by omega
    rw [h0, List.drop_zero]

theorem lastN_length {α : Type} (n : Nat) (l : List α) (h : n ≤ l.length) :
    (lastN n l).length = n := by
  rw [lastN_eq_drop, List.length_drop]
  omega

/-- C6: with two Breadcrumbs attachments whose decoded sequences are
`l1` and `l2`, `event_from_attachments` orders the two sequences by
their last timestamps (the one with the later last timestamp placed
second), concatenates them, and keeps exactly the last
`max(len1, len2)` entries of that concatenation as the event's
breadcrumbs. -/
theorem C6_event_from_attachments (cfg : Config) (eio : Option Item)
    (b1i b2i : Item) (evAnn : Option Event) (l1 l2 : List Crumb)
    (hev : extract_attached_event cfg eio = .ok evAnn)
    (h1 : parse_msgpack_breadcrumbs cfg (some b1i) = .ok l1)
    (h2 : parse_msgpack_breadcrumbs cfg (some b2i) = .ok l2)
    (hne : l1 ≠ [] ∨ l2 ≠ []) :
    event_from_attachments cfg eio (some b1i) (some b2i)
      = .ok
          (some { evAnn.getD {} with breadcrumbs := some (lastN (max l1.length l2.length) (breadcrumbOrdered l1 l2)) },
           (eio.map Item.len).getD 0 + b1i.len + b2i.len) := by
  have hmax1 : max l1.length l2.length ≤ (l1 ++ l2).length := by
    simp only [List.length_append]
    omega
  have hmax2 : max l1.length l2.length ≤ (l2 ++ l1).length := by
    simp only [List.length_append]
    omega
  have hpos : 1 ≤ max l1.length l2.length := by
    rcases hne with hne | hne
    · have := List.length_pos.mpr hne
      omega
    · have := List.length_pos.mpr hne
      omega
  simp only [event_from_attachments, hev, h1, h2, bind, Except.bind, pure,
    Except.pure]
  by_cases hgt : optGt (lastCrumbTimestamp l1) (lastCrumbTimestamp l2)
  · simp only [hgt, if_true, ite_true, breadcrumbOrdered]
    rw [Nat.max_comm l2.length l1.length]
    rw [truncIf_eq_lastN _ _ hmax2]
    have hlen := lastN_length (max l1.length l2.length) (l2 ++ l1) hmax2
    have hnemp : (lastN (max l1.length l2.length) (l2 ++ l1)).isEmpty = false := by
      cases hval : lastN (max l1.length l2.length) (l2 ++ l1) with
      | nil =>
        rw [hval] at hlen
        simp at hlen
        omega
      | cons a l => rfl
    simp [hnemp]
  · simp only [hgt, if_false, ite_false, breadcrumbOrdered, Bool.false_eq_true]
    rw [truncIf_eq_lastN _ _ hmax1]
    have hlen := lastN_length (max l1.length l2.length) (l1 ++ l2) hmax1
    have hnemp : (lastN (max l1.length l2.length) (l1 ++ l2)).isEmpty = false := by
      cases hval : lastN (max l1.length l2.length) (l1 ++ l2) with
      | nil =>
        rw [hval] at hlen
        simp at hlen
        omega
      | cons a l => rfl
    simp [hnemp]

/-- Witness for C6: interleaved timestamps, lengths 2 and 3; the later
last timestamp (30) puts the first sequence second, and the last 3
entries of the concatenation become the breadcrumbs. -/
theorem C6_event_from_attachments_witness :
    event_from_attachments cfgTriv none (some (bcItem l1C6)) (some (bcItem l2C6))
      = .ok
          (some ({ breadcrumbs := some (lastN 3 (breadcrumbOrdered l1C6 l2C6)) } : Event), 2) :=
  C6_event_from_attachments cfgTriv none (bcItem l1C6) (bcItem l2C6)
    (some {}) l1C6 l2C6 rfl rfl rfl (.inl (by decide))

/-- C3 counterexample: an envelope containing exactly one Event item and
one RawSecurity item does not fail extraction at all — both are taken
out up front, no duplicate remains, and the Event item is selected as
the event source — refuting that it fails with
`DuplicateItem(Security)`. -/
theorem C3_counterexample :
    ∃ st2, extract_event cfgTriv stC3 = .ok st2 ∧ st2.envelope.items = [] :=
  ⟨_, rfl, rfl⟩

/-- C3 amended: for an envelope with one Event and one RawSecurity item,
extraction succeeds, consuming both items and taking the payload from
the Event item; a `DuplicateItem` error arises only when a duplicate
item remains after one item of each event kind was taken — e.g. adding
a second RawSecurity item fails with `DuplicateItem(RawSecurity)`. -/
theorem C3_event_plus_raw_security (cfg : Config) (st : PState)
    (ie ir : Item) (ev : Event)
    (hie : ie.ty = ItemType.event)
    (hir : ir.ty = ItemType.rawSecurity)
    (hpl : ie.payload.eventJson = some (some ev))
    (hitems : st.envelope.items = [ie, ir]) :
    (∃ st2, extract_event cfg st = .ok st2
       ∧ st2.event = some { ev with ty := none }
       ∧ st2.envelope.items = [])
    ∧ (∀ ir2 : Item, ir2.ty = ItemType.rawSecurity →
        ir2.attachment_ty = none →
        extract_event cfg
            { st with envelope := { st.envelope with items := [ie, ir, ir2] } }
          = .error (.duplicateItem ItemType.rawSecurity)) := by
  obtain ⟨iety, ieaty, ielen, ieme, iesr, iesrel, iesenv, iep⟩ := ie
  obtain ⟨irty, iraty, irlen, irme, irsr, irsrel, irsenv, irp⟩ := ir
  dsimp only at hie hir hpl
  subst hie
  subst hir
  constructor
  · simp [extract_event, Envelope.take_item_by, Envelope.takeItemBy,
      Envelope.get_item_by, Item.take_sample_rates, Item.attachment_type,
      event_from_json_payload, is_duplicate, hpl, hitems]
  · intro ir2 hir2 hat2
    obtain ⟨i2ty, i2aty, i2len, i2me, i2sr, i2srel, i2senv, i2p⟩ := ir2
    dsimp only at hir2 hat2
    subst hir2
    subst hat2
    simp [extract_event, Envelope.take_item_by, Envelope.takeItemBy,
      Envelope.get_item_by, Item.take_sample_rates, Item.attachment_type,
      event_from_json_payload, is_duplicate, hpl, hitems]

/-- Witness for the amended C3 at concrete items. -/
theorem C3_event_plus_raw_security_witness :
    (∃ st2, extract_event cfgTriv stC3 = .ok st2
       ∧ st2.event = some { ({} : Event) with ty := none }
       ∧ st2.envelope.items = [])
    ∧ extract_event cfgTriv
        { stC3 with envelope := { stC3.envelope with
            items := [itemEventC3, itemRawSecC3, itemRawSecC3] } }
      = .error (.duplicateItem ItemType.rawSecurity) := by
  obtain ⟨h1, h2⟩ := C3_event_plus_raw_security cfgTriv stC3 itemEventC3
    itemRawSecC3 {} rfl rfl rfl rfl
  exact ⟨h1, h2 itemRawSecC3 rfl rfl⟩

theorem is_valid_session_timestamp_iff (cfg : Config) (received t : Int) :
    is_valid_session_timestamp cfg received t = true
      ↔ (received - cfg.max_session_secs_in_past ≤ t
          ∧ t ≤ received + cfg.max_secs_in_future) := by
  unfold is_valid_session_timestamp
  split_ifs with h1 h2 <;> simp <;> omega

theorem validate_attributes_none (ext : Ext) (ca : Option Int)
    (attrs : SessionAttributes)
    (h : ext.validate_release attrs.release = false) :
    validate_attributes ext ca attrs = none := by
  unfold validate_attributes
  simp [h]

theorem validate_attributes_isSome_of (ext : Ext) (ca : Option Int)
    (attrs : SessionAttributes)
    (h : ext.validate_release attrs.release = true) :
    ∃ pr, validate_attributes ext ca attrs = some pr := by
  unfold validate_attributes
  rw [if_neg (by simp [h])]
  exact ⟨_, rfl⟩

theorem sessionAfterClock_attributes (cdp : ClockDriftProcessor)
    (s : SessionUpdate) :
    (sessionAfterClock cdp s).attributes = s.attributes := by
  simp only [sessionAfterClock]
  split <;> split <;> rfl

theorem process_session_validate_isSome (ext : Ext) (cfg : Config)
    (received : Int) (client : Option String) (client_addr : Option Int)
    (mcfg : SessionMetricsConfig) (item : Item) (acc : List Metric)
    (s2 : SessionUpdate) (c2 : Bool)
    (hdrop : (mcfg.should_drop
      && (item.metrics_extracted || mcfg.is_enabled)) = false)
    (hser : ∀ u : SessionUpdate, ∃ r, ext.session_to_json u = .ok r) :
    (process_session_validate ext cfg received client client_addr mcfg item
        acc s2 c2).1.isSome
      = (is_valid_session_timestamp cfg received s2.started
         && is_valid_session_timestamp cfg received s2.timestamp
         && ext.validate_release s2.attributes.release) := by
  cases hA : is_valid_session_timestamp cfg received s2.timestamp with
  | false => simp [process_session_validate, hA]
  | true =>
    cases hB : is_valid_session_timestamp cfg received s2.started with
    | false => simp [process_session_validate, hA, hB]
    | true =>
      cases hvr : ext.validate_release s2.attributes.release with
      | false =>
        simp [process_session_validate, hA, hB, hvr,
          validate_attributes_none ext client_addr s2.attributes hvr]
      | true =>
        obtain ⟨⟨attrs2, chA⟩, hsome⟩ :=
          validate_attributes_isSome_of ext client_addr s2.attributes hvr
        unfold process_session_validate
        rw [if_neg (by simp [hA, hB]), hsome]
        obtain ⟨men, mdrop⟩ := mcfg
        simp only [SessionMetricsConfig.should_drop,
          SessionMetricsConfig.is_enabled] at hdrop ⊢
        cases men <;> cases mdrop <;> cases hme : item.metrics_extracted <;>
          simp only [hme, Bool.or_true, Bool.or_false, Bool.true_or,
            Bool.false_or, Bool.and_true, Bool.and_false, Bool.true_and,
            Bool.false_and] at hdrop
        all_goals try (cases hdrop)
        all_goals
          obtain ⟨r, hr⟩ := hser { s2 with attributes := attrs2 }
        all_goals cases c2 <;> cases chA <;> simp [hme, hr]

/-- C2 counterexample: a Session item whose timestamps lie inside the
window (no drift is active) and whose release validates is nonetheless
dropped by `process_sessions`, because its sequence number is
`u64::MAX` — refuting the survive-iff claim as stated. -/
theorem C2_counterexample :
    (process_sessions extTriv cfgTriv stC2).envelope.items = []
    ∧ is_valid_session_timestamp cfgTriv ctxTriv.received_at
        sessC2.timestamp = true
    ∧ is_valid_session_timestamp cfgTriv ctxTriv.received_at
        sessC2.started = true
    ∧ extTriv.validate_release sessC2.attributes.release = true :=
  ⟨rfl, by decide, by decide, rfl⟩

/-- C2 amended: provided the payload parses as a session, its sequence
is not `u64::MAX`, the drop-after-metric-extraction rule does not fire,
and re-serialization succeeds, the Session item survives iff after
clock-drift correction and timestamp snapping both `started` and
`timestamp` pass the window check and the release validates — where the
window check accepts exactly
`[received - max_session_secs_in_past, received + max_secs_in_future]`. -/
theorem C2_session_survival (ext : Ext) (cfg : Config) (received : Int)
    (client : Option String) (client_addr : Option Int)
    (mcfg : SessionMetricsConfig) (cdp : ClockDriftProcessor)
    (item : Item) (acc : List Metric) (s : SessionUpdate)
    (hparse : item.payload.session = some s)
    (hseq : s.sequence ≠ u64Max)
    (hdrop : (mcfg.should_drop
      && (item.metrics_extracted || mcfg.is_enabled)) = false)
    (hser : ∀ u : SessionUpdate, ∃ r, ext.session_to_json u = .ok r) :
    ((process_session ext cfg received client client_addr mcfg cdp item
          acc).1.isSome = true
      ↔ (is_valid_session_timestamp cfg received
            (sessionAfterClock cdp s).started = true
         ∧ is_valid_session_timestamp cfg received
            (sessionAfterClock cdp s).timestamp = true
         ∧ ext.validate_release s.attributes.release = true))
    ∧ (∀ t, is_valid_session_timestamp cfg received t = true
         ↔ (received - cfg.max_session_secs_in_past ≤ t
            ∧ t ≤ received + cfg.max_secs_in_future)) := by
  constructor
  · simp only [process_session, hparse]
    rw [if_neg hseq]
    rw [process_session_validate_isSome ext cfg received client client_addr
      mcfg item acc _ _ hdrop hser]
    rw [sessionAfterClock_attributes]
    simp [Bool.and_eq_true, and_assoc]
  · exact fun t => is_valid_session_timestamp_iff cfg received t

/-- Witness for the amended C2: a session with in-range timestamps, a
validating release and sequence 0 survives `process_session`. -/
theorem C2_session_survival_witness :
    (process_session extTriv cfgTriv 1000 none none ⟨false, false⟩ ⟨none⟩
        itemC2v []).1.isSome = true :=
  ((C2_session_survival extTriv cfgTriv 1000 none none ⟨false, false⟩
      ⟨none⟩ itemC2v [] sessC2v rfl (by decide) rfl
      (fun _ => ⟨8, rfl⟩)).1).mpr ⟨by decide, by decide, rfl⟩

theorem allTrack_nil : allTrack [] := by
  intro m hm
  cases hm

theorem allTrack_append {a b : List Msg} (ha : allTrack a)
    (hb : allTrack b) : allTrack (a ++ b) := by
  intro m hm
  rcases List.mem_append.mp hm with h | h
  exacts [ha m h, hb m h]

theorem allTrack_map_track (l : List TrackOutcome) :
    allTrack (l.map Msg.track) := by
  intro m hm
  obtain ⟨t, _, rfl⟩ := List.mem_map.mp hm
  exact ⟨t, rfl⟩

theorem clientReportOutcomes_allTrack (ext : Ext) (sc : Scoping) (ts : Nat)
    (m : OutMap) : allTrack (clientReportOutcomes ext sc ts m) := by
  induction m with
  | nil => exact allTrack_nil
  | cons e rest ih =>
    unfold clientReportOutcomes at ih ⊢
    rw [List.foldr_cons]
    cases h : outcome_from_parts ext.parse_filter_stat_key e.1.1 e.1.2.1 with
    | error u => exact ih
    | ok o =>
      intro msg hm
      rcases List.mem_cons.mp hm with rfl | hm
      · exact ⟨_, rfl⟩
      · exact ih msg hm

theorem process_client_reports_allTrack (ext : Ext) (cfg : Config)
    (st : PState) : allTrack (process_client_reports ext cfg st).2 := by
  simp only [process_client_reports]
  repeat' split
  all_goals first
    | exact allTrack_nil
    | exact clientReportOutcomes_allTrack _ _ _ _

theorem profile_step_allTrack (cfg : Config) (pe : Bool)
    (ctx : EnvelopeContext) (i : Item) :
    allTrack (profile_step cfg pe ctx i).2 := by
  unfold profile_step
  split
  · split
    · exact allTrack_nil
    · split
      · split
        · intro m hm
          rcases List.mem_cons.mp hm with rfl | hm
          · exact ⟨_, rfl⟩
          · cases hm
        · exact allTrack_nil
      · exact allTrack_nil
  · exact allTrack_nil

theorem process_profiles_allTrack (cfg : Config) (st : PState) :
    allTrack (process_profiles cfg st).2 := by
  simp only [process_profiles]
  generalize st.envelope.items = items
  induction items with
  | nil => exact allTrack_nil
  | cons i rest ih =>
    rw [List.foldr_cons]
    exact allTrack_append (profile_step_allTrack _ _ _ _) ih

theorem sample_event_allTrack (ext : Ext) (cfg : Config) (st : PState) :
    allTrack (sample_event ext cfg st).2.1 := by
  unfold sample_event
  split
  · exact allTrack_nil
  · split
    · exact allTrack_map_track _
    · exact allTrack_nil
    · exact allTrack_nil

theorem andThen_allTrack {r : StageRes} {f : PState → StageRes}
    (hr : allTrack r.2.1) (hf : ∀ st, allTrack (f st).2.1) :
    allTrack (andThen r f).2.1 := by
  rcases r with ⟨st, msgs, e⟩
  cases e with
  | none => exact allTrack_append hr (hf st)
  | some err => exact hr

theorem okSt_allTrack (st : PState) : allTrack (StageRes.okSt st).2.1 :=
  allTrack_nil

theorem exceptStage_allTrack (f : PState → Except ProcessingError PState)
    (st : PState) : allTrack (exceptStage f st).2.1 := by
  unfold exceptStage
  split <;> exact allTrack_nil

/-- No stage of `process_state` ever sends an `InsertMetrics` message;
only the driver does. -/
theorem process_state_allTrack (ext : Ext) (cfg : Config) (st : PState) :
    allTrack (process_state ext cfg st).2.1 := by
  unfold process_state
  apply andThen_allTrack
  · apply andThen_allTrack
    · apply andThen_allTrack
      · apply andThen_allTrack
        · apply andThen_allTrack
          · apply andThen_allTrack
            · apply andThen_allTrack
              · apply andThen_allTrack
                · exact allTrack_nil
                · intro s
                  exact okSt_allTrack _
              · intro s
                exact process_client_reports_allTrack ext cfg s
            · intro s
              exact okSt_allTrack _
          · intro s
            exact process_profiles_allTrack cfg s
        · intro s
          exact okSt_allTrack _
      · intro s
        split
        · apply andThen_allTrack
          · apply andThen_allTrack
            · apply andThen_allTrack
              · exact allTrack_nil
              · intro s2
                exact exceptStage_allTrack _ _
            · intro s2
              exact exceptStage_allTrack _ _
          · intro s2
            exact sample_event_allTrack ext cfg s2
        · exact okSt_allTrack _
    · intro s
      split
      · apply andThen_allTrack
        · apply andThen_allTrack
          · exact allTrack_nil
          · intro s2
            exact exceptStage_allTrack _ _
        · intro s2
          exact exceptStage_allTrack _ _
      · exact okSt_allTrack _
  · intro s
    exact okSt_allTrack _

theorem should_keep_metrics_iff (err : ProcessingError) :
    err.should_keep_metrics = true
      ↔ ∃ rule, err = .eventSampled rule ∨ err = .traceSampled rule := by
  cases err <;> simp [ProcessingError.should_keep_metrics]

/-- C1: when processing fails, the driver forwards the accumulated
extracted metrics (an `InsertMetrics` message) exactly when the error is
a dynamic-sampling error (`EventSampled`/`TraceSampled`) and the
accumulator is non-empty; for any non-sampling error no metrics are
forwarded. -/
theorem C1_sampling_error_keeps_metrics (ext : Ext) (cfg : Config)
    (message : ProcessEnvelopeMsg) (st st2 : PState) (msgs : List Msg)
    (err : ProcessingError)
    (hprep : prepare_state cfg message = .ok st)
    (hrun : process_state ext cfg st = (st2, msgs, some err)) :
    ((∃ rule, err = .eventSampled rule ∨ err = .traceSampled rule) →
      st2.extracted_metrics ≠ [] →
      Msg.insertMetrics st.envelope_context.scoping.project_key
          st2.extracted_metrics ∈ (process ext cfg message).1)
    ∧ (¬ (∃ rule, err = .eventSampled rule ∨ err = .traceSampled rule) →
      ∀ k ms, Msg.insertMetrics k ms ∉ (process ext cfg message).1) := by
  have hmsgs : allTrack msgs := by
    have := process_state_allTrack ext cfg st
    rw [hrun] at this
    exact this
  constructor
  · intro hs hne
    have hkeep : err.should_keep_metrics = true :=
      (should_keep_metrics_iff err).mpr hs
    simp only [process, hprep, hrun, hkeep,
      List.isEmpty_eq_true, hne, not_false_eq_true, and_self, if_true,
      ite_true]
    simp [List.mem_append]
  · intro hs k ms hmem
    have hkeep : err.should_keep_metrics = false := by
      cases h : err.should_keep_metrics
      · rfl
      · exact absurd ((should_keep_metrics_iff err).mp h) hs
    simp only [process, hprep, hrun, hkeep, Bool.false_eq_true, and_false,
      if_false, ite_false, List.append_nil] at hmem
    rcases List.mem_append.mp hmem with h | h
    · obtain ⟨t, ht⟩ := hmsgs _ h
      cases ht
    · rcases herr : err.to_outcome with _ | o
      · rw [herr] at h
        cases h
      · rw [herr] at h
        obtain ⟨t, ht⟩ := allTrack_map_track
          (st.envelope_context.send_outcomes o) _ h
        cases ht

/-- Witness for C1: an envelope with one valid session (metric
extraction enabled, producing one metric) and one event that the
sampler drops with rule 7; the metric is still inserted and the driver
returns `EventSampled(7)`. -/
theorem C1_sampling_error_keeps_metrics_witness :
    Msg.insertMetrics 0 [1] ∈ (process extDrop cfgTriv msgC1).1
    ∧ (process extDrop cfgTriv msgC1).2 = .error (.eventSampled 7) := by
  constructor
  · exact (C1_sampling_error_keeps_metrics extDrop cfgTriv msgC1 _ _ _
      (.eventSampled 7) rfl rfl).1 ⟨7, Or.inl rfl⟩ (by decide)
  · rfl

/-- C9: for every envelope that completes the pipeline without error,
the driver returns the final envelope — reported as absent when it
ended up empty — together with the accumulated rate limits. -/
theorem C9_success_returns_envelope (ext : Ext) (cfg : Config)
    (message : ProcessEnvelopeMsg) (st st2 : PState) (msgs : List Msg)
    (hprep : prepare_state cfg message = .ok st)
    (hrun : process_state ext cfg st = (st2, msgs, none)) :
    ∃ resp, (process ext cfg message).2 = .ok resp
      ∧ resp.rate_limits = st2.rate_limits
      ∧ resp.envelope
          = (if st2.envelope.is_empty then none else some st2.envelope)
      ∧ (st2.envelope.is_empty = false → resp.envelope = some st2.envelope) := by
  simp only [process, hprep, hrun]
  refine ⟨_, rfl, rfl, rfl, ?_⟩
  intro h
  simp [h]

/-- Witness for C9: an envelope with no items completes successfully,
returning no envelope and empty rate limits. -/
theorem C9_success_returns_envelope_witness :
    ∃ resp, (process extTriv cfgTriv msgC9).2 = .ok resp
      ∧ resp.rate_limits = [] ∧ resp.envelope = none := by
  obtain ⟨resp, h1, h2, h3, h4⟩ :=
    C9_success_returns_envelope extTriv cfgTriv msgC9 _ _ _ rfl rfl
  exact ⟨resp, h1, h2, h3⟩

end Relay
